import Mathlib

/-!
Verification of the DBF reader (a browser port of `DBFFile`): a shallow
embedding of `dbf-file.ts` (header parsing, chunked record reading, field
decoding, memo-block resolution) and `file-version.ts`, together with proofs
about the embedded functions.

Modelling conventions:
* JS byte buffers (`Uint8Array` / `ArrayBuffer`) are `List Nat` with entries
  in 0..255.  Out-of-range reads on a `Uint8Array` yield `undefined` in JS;
  every comparison the source makes against a possibly-`undefined` byte
  behaves identically when the read is modelled as yielding `0`
  (`undefined === 0x2a`, `undefined === 0x0d`, `undefined === 0x20`, and the
  `"TtYy".indexOf` test are all false for both `undefined` and `0`).
* JS numbers that the source uses as integers (offsets, counts, block
  indices) are `Int`; sign/width conversions (`getInt16`, `getInt32`,
  `getUint16`, `getUint32`) are explicit.
* Fallible paths (`throw`, and the `RangeError` a `DataView` constructor or
  accessor raises on out-of-range views) are `Except String`.
* Character-set decoding (`TextDecoder`) is an external collaborator
  (spec section 1): it is modelled as the identity on the byte payload, so
  decoded text is carried as the raw byte list.  All the encodings the
  library accepts are ASCII-compatible, so the byte-level newline/space
  structure used below is preserved by the real decoder.
-/

deriving instance DecidableEq for Except

namespace DBF

/-- Byte buffers are lists of naturals (each conceptually in 0..255). -/
abbrev Bytes := List Nat

/-- JS `buffer[i]` on a `Uint8Array`: an in-range read yields the byte, an
out-of-range read yields `undefined`, modelled as `0` (see the header note:
every comparison the source makes treats the two identically). -/
def byteAt (b : Bytes) (i : Int) : Nat :=
  if 0 ≤ i then b.getD i.toNat 0 else 0

/-- JS `buffer.slice(start, stop)` / `subarray(start, stop)`: both clamp the
bounds to `[0, length]`.  (Negative from-the-end indices are never passed by
the embedded call sites, which all guard the start to be non-negative.) -/
def sliceClamp (b : Bytes) (start stop : Int) : Bytes :=
  (b.take (max stop 0).toNat).drop (max start 0).toNat

/-- Interpret two bytes as a big-endian unsigned 16-bit value. -/
def uint16BE (b : Bytes) (off : Int) : Int :=
  256 * (byteAt b off : Int) + (byteAt b (off + 1) : Int)

/-- Interpret four bytes as a big-endian unsigned 32-bit value. -/
def uint32BE (b : Bytes) (off : Int) : Int :=
  16777216 * (byteAt b off : Int) + 65536 * (byteAt b (off + 1) : Int) +
    256 * (byteAt b (off + 2) : Int) + (byteAt b (off + 3) : Int)

/-- Interpret four bytes as a little-endian unsigned 32-bit value. -/
def uint32LE (b : Bytes) (off : Int) : Int :=
  (byteAt b off : Int) + 256 * (byteAt b (off + 1) : Int) +
    65536 * (byteAt b (off + 2) : Int) + 16777216 * (byteAt b (off + 3) : Int)

/-- Two's-complement reinterpretation of an unsigned value of width `2^bits`. -/
def toSigned (bits : Nat) (v : Int) : Int :=
  if 2 ^ (bits - 1) ≤ v then v - 2 ^ bits else v

/-- Big-endian signed 32-bit read. -/
def int32BE (b : Bytes) (off : Int) : Int := toSigned 32 (uint32BE b off)

/-- Little-endian signed 32-bit read. -/
def int32LE (b : Bytes) (off : Int) : Int := toSigned 32 (uint32LE b off)

/-- Little-endian signed 16-bit read. -/
def int16LE (b : Bytes) (off : Int) : Int :=
  toSigned 16 ((byteAt b off : Int) + 256 * (byteAt b (off + 1) : Int))

/-- `new DataView(data.slice(off, off + 4)).getInt32(0, true)`: the slice is
clamped, and `getInt32` raises a `RangeError` when the resulting view holds
fewer than four bytes. -/
def dvInt32LE (b : Bytes) (off : Nat) : Except String Int :=
  if off + 4 ≤ b.length then .ok (int32LE b off) else .error "RangeError"

/-- `new DataView(data.slice(off, off + 2)).getInt16(0, true)`, with the same
`RangeError` behaviour on a short slice. -/
def dvInt16LE (b : Bytes) (off : Nat) : Except String Int :=
  if off + 2 ≤ b.length then .ok (int16LE b off) else .error "RangeError"

/-- `new DataView(memoData.slice(6, 8)).getUint16(0)` — big-endian (the
`littleEndian` argument is omitted in the source, so it defaults to false). -/
def dvUint16BE (b : Bytes) (off : Nat) : Except String Int :=
  if off + 2 ≤ b.length then .ok (uint16BE b off) else .error "RangeError"

/-- `new DataView(memoData.slice(4, 8)).getInt32(0)` — big-endian. -/
def dvInt32BE (b : Bytes) (off : Nat) : Except String Int :=
  if off + 4 ≤ b.length then .ok (int32BE b off) else .error "RangeError"

/-- An absolute-position little-endian `getInt32` through a
`DataView(buffer, abs, 4)` over the whole file buffer: the constructor raises
`RangeError` when the window does not fit. -/
def dvAbsInt32LE (b : Bytes) (abs : Int) : Except String Int :=
  if 0 ≤ abs ∧ abs + 4 ≤ (b.length : Int) then .ok (int32LE b abs)
  else .error "RangeError"

/-- JS whitespace for `String.prototype.trim` / `parseInt`, restricted to the
code points a single decoded byte can produce (ASCII whitespace plus NBSP,
which `latin1` maps byte 0xA0 to). -/
def isJsSpace (c : Nat) : Bool :=
  c = 32 || (9 ≤ c && c ≤ 13) || c = 160

/-- `String.prototype.trim` on decoded text, modelled on the bytes. -/
def jsTrim (b : Bytes) : Bytes :=
  ((b.dropWhile isJsSpace).reverse.dropWhile isJsSpace).reverse

/-- Longest leading run of decimal digits: value and digit count. -/
def leadingDec : Bytes → Nat → Nat → Nat × Nat
  | [], acc, n => (acc, n)
  | c :: rest, acc, n =>
    if 48 ≤ c ∧ c ≤ 57 then leadingDec rest (acc * 10 + (c - 48)) (n + 1)
    else (acc, n)

/-- Hexadecimal digit value, if any. -/
def hexDigitVal (c : Nat) : Option Nat :=
  if 48 ≤ c ∧ c ≤ 57 then some (c - 48)
  else if 97 ≤ c ∧ c ≤ 102 then some (c - 87)
  else if 65 ≤ c ∧ c ≤ 70 then some (c - 55)
  else none

/-- Longest leading run of hexadecimal digits: value and digit count. -/
def leadingHex : Bytes → Nat → Nat → Nat × Nat
  | [], acc, n => (acc, n)
  | c :: rest, acc, n =>
    match hexDigitVal c with
    | some d => leadingHex rest (acc * 16 + d) (n + 1)
    | none => (acc, n)

/-- Unsigned part of JS `parseInt` (radix unspecified): an optional `0x`/`0X`
prefix selects base 16, otherwise base 10; `none` models `NaN` (no digits). -/
def parseIntUnsigned (b : Bytes) : Option Int :=
  match b with
  | 48 :: 120 :: rest =>
    let p := leadingHex rest 0 0
    if p.2 = 0 then none else some (p.1 : Int)
  | 48 :: 88 :: rest =>
    let p := leadingHex rest 0 0
    if p.2 = 0 then none else some (p.1 : Int)
  | _ =>
    let p := leadingDec b 0 0
    if p.2 = 0 then none else some (p.1 : Int)

/-- JS `parseInt(text)` on decoded text, modelled on the bytes: skip leading
whitespace, optional sign, then digits; `none` models `NaN`.  (The JS result
is a float, exact for the small block indices that occur here.) -/
def parseIntBytes (b : Bytes) : Option Int :=
  match b.dropWhile isJsSpace with
  | 43 :: rest => parseIntUnsigned rest
  | 45 :: rest => (parseIntUnsigned rest).map (fun v => -v)
  | rest => parseIntUnsigned rest

/-- `Uint8Array.prototype.indexOf(v, fromIndex)`: first index `≥ fromIndex`
holding `v`, else `-1`; a negative `fromIndex` counts from the end. -/
def jsIndexOf (l : Bytes) (v : Nat) (fromIndex : Int) : Int :=
  let s : Nat := (if fromIndex < 0 then max ((l.length : Int) + fromIndex) 0
                  else fromIndex).toNat
  match (l.drop s).findIdx? (fun c => c == v) with
  | some i => ((s + i : Nat) : Int)
  | none => -1

/-- First rewrite of the 0x83 memo path: `.replace(/\r\n/g, "\n")`. -/
def replaceCRLF : Bytes → Bytes
  | 13 :: 10 :: rest => 10 :: replaceCRLF rest
  | c :: rest => c :: replaceCRLF rest
  | [] => []

/-- The sixteen spaces the 0x83 memo path appends after interior newlines. -/
def indent16 : Bytes := List.replicate 16 32

/-- Second rewrite of the 0x83 memo path: `.replace(/\n(?!$)/g, "\n" + 16
spaces)` — every newline that is not the final character gets sixteen spaces
appended. -/
def injectIndent : Bytes → Bytes
  | [] => []
  | c :: rest =>
    if c = 10 ∧ rest ≠ [] then c :: (indent16 ++ injectIndent rest)
    else c :: injectIndent rest

/-- Read mode option (`options.readMode`, default `"strict"`). -/
inductive ReadMode
  | strict
  | loose
  deriving Repr, DecidableEq

/-- One entry of the field-descriptor table (`field-descriptor.ts` interface):
`name` is the decoded name up to the first NUL, `type` the one-character tag
(carried as its character code), `size` and `decimalPlaces` single bytes. -/
structure FieldDescriptor where
  name : Bytes
  type : Nat
  size : Nat
  decimalPlaces : Nat
  deriving Repr, DecidableEq

/-- A decoded field value.  Values whose interpretation is delegated to the
missing `utils.ts` helpers or to the platform (float parsing, date
construction, IEEE-754 doubles) carry their raw inputs. -/
inductive Value
  | vnull
  /-- Decoded text (`C` fields, memo payloads); decoding is the identity on
  bytes, the empty string is `vtext []`. -/
  | vtext (bytes : Bytes)
  /-- `N`/`F` fields: the trimmed numeric text handed to `parseFloat` (empty
  or unparsable text stands for the number 0). -/
  | vnumber (text : Bytes)
  | vbool (b : Bool)
  /-- `T` fields: the inputs handed to `parseVfpDateTime` (from the missing
  `utils.ts`): little-endian Julian day and milliseconds-since-midnight + 1. -/
  | vdatetime (julianDay : Int) (msSinceMidnight : Int)
  /-- `D` fields: the eight text bytes handed to `parse8CharDate`. -/
  | vdate (text : Bytes)
  /-- `B` fields: the eight raw bytes of the little-endian IEEE-754 double. -/
  | vdouble (raw : Bytes)
  | vint (n : Int)
  deriving Repr, DecidableEq

/-- One decoded record: the field-name/value mapping in insertion order, plus
the out-of-band `[DELETED]` marker (a `Symbol` key in the source, so it can
never collide with a field name — modelled as a separate flag). -/
structure DecodedRecord where
  fields : List (Bytes × Value)
  deleted : Bool
  deriving Repr, DecidableEq

/-- `record[field.name] = value` on a JS object: overwrite an existing key in
place, otherwise append. -/
def setField (fs : List (Bytes × Value)) (k : Bytes) (v : Value) :
    List (Bytes × Value) :=
  match fs with
  | [] => [(k, v)]
  | (k', v') :: rest =>
    if k' = k then (k, v) :: rest else (k', v') :: setField rest k v

/-- The `DBFFile` handle: public `data`/`recordCount`/`dateOfLastUpdate`/
`fields` plus the private session state (`_readMode`, `_includeDeletedRecords`,
`_recordsRead`, `_headerLength`, `_recordLength`, `_memoData`, `_version`).
`dateOfLastUpdate` keeps the raw `(year, month, day)` triple handed to the
missing `utils.ts` `createDate`.  The encoding options only select a
`TextDecoder` and decoding is modelled as the identity, so they are dropped. -/
structure DBFFile where
  data : Bytes
  recordCount : Int
  dateOfLastUpdate : Int × Int × Int
  fields : List FieldDescriptor
  readMode : ReadMode
  includeDeletedRecords : Bool
  recordsRead : Int
  headerLength : Int
  recordLength : Int
  memoData : Option Bytes
  version : Int
  deriving Repr, DecidableEq

/-- `file-version.ts`: the closed list of valid one-byte version tags. -/
def isValidFileVersion (fileVersion : Nat) : Bool :=
  [0x03, 0x83, 0x8b, 0x30, 0xf5].contains fileVersion

/-- `calculateRecordLengthInBytes`: one byte for the deletion flag plus the
sum of the field sizes. -/
def calculateRecordLengthInBytes (fields : List FieldDescriptor) : Int :=
  1 + (fields.map (fun f => (f.size : Int))).sum

/-- Modelled from the spec: `validateFieldDescriptor` lives in
`field-descriptor.ts`, which is not among the provided sources.  Per spec
sections 3 and 4.2 it fails when the name is empty or longer than ten bytes,
when the type tag is not legal for the detected version, or when the size is
outside the type's legal range; the exact type/size table is not spelled out
by the spec, so the standard xBase ranges are used.  No claim in this
development depends on the precise table — it only gates whether strict-mode
parsing reaches the duplicate-name and record-length checks. -/
def validateFieldDescriptor (field : FieldDescriptor) (fileVersion : Nat) :
    Except String Unit :=
  if field.name.length < 1 ∨ 10 < field.name.length then
    .error "Invalid field name."
  else
    let vfp := fileVersion = 0x30 ∨ fileVersion = 0xf5
    let legal : List Nat :=
      if vfp then [67, 78, 70, 76, 68, 77, 84, 66, 73, 89]
      else [67, 78, 70, 76, 68, 77]
    if ¬ legal.contains field.type then .error "Invalid field type."
    else
      let sizeOk :=
        if field.type = 67 then 1 ≤ field.size ∧ field.size ≤ 255
        else if field.type = 78 ∨ field.type = 70 then
          1 ≤ field.size ∧ field.size ≤ 20
        else if field.type = 76 then field.size = 1
        else if field.type = 68 ∨ field.type = 84 ∨ field.type = 66 ∨
            field.type = 89 then field.size = 8
        else if field.type = 73 then field.size = 4
        else field.size = 4 ∨ field.size = 10
      if sizeOk then .ok () else .error "Invalid field size."

/-- The field descriptor the header loop builds at `offset`: eleven name
bytes decoded and split at the first NUL, then the type tag, size and decimal
places at offsets 11, 16 and 17. -/
def mkFieldAt (data : Bytes) (offset : Int) : FieldDescriptor :=
  { name := (sliceClamp data offset (offset + 11)).takeWhile (fun c => c ≠ 0)
    type := byteAt data (offset + 11)
    size := byteAt data (offset + 16)
    decimalPlaces := byteAt data (offset + 17) }

/-- Error message for a duplicate field name (the decoded name is carried as
bytes, so its rendering stands in for the JS string interpolation). -/
def dupFieldNameMsg (name : Bytes) : String :=
  "Duplicate field name: " ++ toString name ++ "."

/-- The field-descriptor loop of `openDBF`: starting at offset 32, read
32-byte entries while the declared header length exceeds the offset and the
entry does not start with the 0x0D terminator; in strict mode each entry is
validated and checked against the accumulated names.  Returns the fields and
the offset at which the loop stopped. -/
def parseFields (data : Bytes) (headerLength : Int) (readMode : ReadMode)
    (fileVersion : Nat) (offset : Int) (fields : List FieldDescriptor) :
    Except String (List FieldDescriptor × Int) :=
  if h : headerLength ≤ offset then .ok (fields, offset)
  else if byteAt data offset = 0x0d then .ok (fields, offset)
  else
    let field := mkFieldAt data offset
    let offset' := offset + 32
    if readMode ≠ .loose then
      match validateFieldDescriptor field fileVersion with
      | .error e => .error e
      | .ok _ =>
        if ¬ fields.all (fun f => f.name ≠ field.name) then
          .error (dupFieldNameMsg field.name)
        else parseFields data headerLength readMode fileVersion offset'
          (fields ++ [field])
    else parseFields data headerLength readMode fileVersion offset'
      (fields ++ [field])
  termination_by (headerLength - offset).toNat
  decreasing_by
    all_goals simp only [not_le] at h; omega

/-- Error message for an invalid version byte. -/
def invalidVersionMsg (v : Nat) : String :=
  "Invalid file version: " ++ toString v ++ "."

/-- Error message for the record-length mismatch. -/
def invalidRecordLengthMsg (got expected : Int) : String :=
  "Invalid record length: " ++ toString got ++ ". Expected " ++
    toString expected ++ "."

/-- `openDBF` (`DBFFile.open`): read the fixed header, validate the version
tag in strict mode, parse the field-descriptor table, require the 0x0D
terminator, validate (strict) or recompute (loose) the record length, and
build the handle.  The options are received already normalised
(`normaliseOpenOptions` from the missing `options.ts` only fills defaults:
strict mode, `includeDeletedRecords = false`). -/
def openDBF (data : Bytes) (memoData : Option Bytes) (readMode : ReadMode)
    (includeDeletedRecords : Bool) : Except String DBFFile :=
  let fileVersion := byteAt data 0
  let lastUpdateY := byteAt data 1
  let lastUpdateM := byteAt data 2
  let lastUpdateD := byteAt data 3
  match dvInt32LE data 4 with
  | .error e => .error e
  | .ok recordCount =>
    match dvInt16LE data 8 with
    | .error e => .error e
    | .ok headerLength =>
      match dvInt16LE data 10 with
      | .error e => .error e
      | .ok recordLength0 =>
        if readMode ≠ .loose ∧ ¬ isValidFileVersion fileVersion then
          .error (invalidVersionMsg fileVersion)
        else
          match parseFields data headerLength readMode fileVersion 32 [] with
          | .error e => .error e
          | .ok (fields, offset) =>
            if byteAt data offset ≠ 0x0d then
              .error "Invalid DBF file: header terminator not found."
            else
              let computedRecordLength := calculateRecordLengthInBytes fields
              let recordLength :=
                if readMode = .loose then computedRecordLength
                else recordLength0
              if recordLength ≠ computedRecordLength then
                .error (invalidRecordLengthMsg recordLength
                  computedRecordLength)
              else
                .ok { data := data
                      recordCount := recordCount
                      dateOfLastUpdate :=
                        ((lastUpdateY : Int) + 1900, (lastUpdateM : Int),
                          (lastUpdateD : Int))
                      fields := fields
                      readMode := readMode
                      includeDeletedRecords := includeDeletedRecords
                      recordsRead := 0
                      headerLength := headerLength
                      recordLength := recordLength
                      memoData := memoData
                      version := (fileVersion : Int) }

/-- The error message of `ensureRange` and of the strict missing-memo path. -/
def memoPastEndMsg : String := "Error reading memo file (read past end)."

/-- `ensureRange(absoluteOffset, length)` from the memo path: fails when the
offset is negative, at or past the end of the memo buffer, or when the read
would run past the end.  Note there is no read-mode test here: the check
throws in strict and loose mode alike. -/
def ensureRange (memoLen : Nat) (absoluteOffset length : Int) :
    Except String Unit :=
  if absoluteOffset < 0 ∨ (memoLen : Int) ≤ absoluteOffset ∨
      (memoLen : Int) < absoluteOffset + length then
    .error memoPastEndMsg
  else .ok ()

/-- `readInt32(absoluteOffset, littleEndian)` over the memo buffer:
`ensureRange` then a four-byte signed read. -/
def readInt32mem (mv : Bytes) (absoluteOffset : Int) (littleEndian : Bool) :
    Except String Int :=
  match ensureRange mv.length absoluteOffset 4 with
  | .error e => .error e
  | .ok _ =>
    .ok (if littleEndian then int32LE mv absoluteOffset
         else int32BE mv absoluteOffset)

/-- `readUint32(absoluteOffset, littleEndian)` over the memo buffer. -/
def readUint32mem (mv : Bytes) (absoluteOffset : Int) (littleEndian : Bool) :
    Except String Int :=
  match ensureRange mv.length absoluteOffset 4 with
  | .error e => .error e
  | .ok _ =>
    .ok (if littleEndian then uint32LE mv absoluteOffset
         else uint32BE mv absoluteOffset)

/-- `collectBytes(startBlockIndex, skipFirstBytes, totalLength)`: an empty
payload for a non-positive length, otherwise a bounds-checked subarray of the
memo buffer. -/
def collectBytes (mv : Bytes) (startBlockIndex skipFirstBytes totalLength
    memoBlockSize : Int) : Except String Bytes :=
  if totalLength ≤ 0 then .ok []
  else
    let startOffset := startBlockIndex * memoBlockSize + skipFirstBytes
    match ensureRange mv.length startOffset totalLength with
    | .error e => .error e
    | .ok _ => .ok (sliceClamp mv startOffset (startOffset + totalLength))

/-- Unsupported-memo-version error message. -/
def memoVersionMsg (version : Int) : String :=
  "Reading version " ++ toString version ++ " memo fields is not supported."

/-- Invalid-block-size error message. -/
def memoBlockSizeMsg (memoBlockSize : Int) : String :=
  "Invalid memo block size " ++ toString memoBlockSize ++ "."

/-- Memo resolution for a non-null block index once the memo buffer is known
to be present: the body of the `M` case of `readRecordsFromDBF` from the
block-size guard onward.  Version 0x83 slices up to the first 0x1A (or the
end of the buffer) and then rewrites the decoded text (CRLF to LF, sixteen
spaces injected after interior newlines); 0x8b reads a little-endian length
at block start + 4 and takes `length - 8` payload bytes from offset 8; 0x30
and 0xf5 read a big-endian type tag (anything but 1 resolves to the empty
string) and a big-endian length; any other version is unsupported. -/
def memoResolve (version memoBlockSize : Int) (mv : Bytes) (blockIndex : Int) :
    Except String Value :=
  if memoBlockSize ≤ 0 then .error (memoBlockSizeMsg memoBlockSize)
  else
    let blockOffset := blockIndex * memoBlockSize
    match ensureRange mv.length blockOffset 0 with
    | .error e => .error e
    | .ok _ =>
      if version = 0x83 then
        let terminator := jsIndexOf mv 0x1a blockOffset
        let stop := if terminator = -1 then (mv.length : Int) else terminator
        let memoBytes := sliceClamp mv blockOffset stop
        .ok (.vtext (injectIndent (replaceCRLF memoBytes)))
      else if version = 0x8b then
        match readUint32mem mv (blockOffset + 4) true with
        | .error e => .error e
        | .ok v =>
          let memoLength := if v - 8 < 0 then 0 else v - 8
          match collectBytes mv blockIndex 8 memoLength memoBlockSize with
          | .error e => .error e
          | .ok bs => .ok (.vtext bs)
      else if version = 0x30 ∨ version = 0xf5 then
        match readInt32mem mv blockOffset false with
        | .error e => .error e
        | .ok memoType =>
          if memoType ≠ 1 then .ok (.vtext [])
          else
            match readInt32mem mv (blockOffset + 4) false with
            | .error e => .error e
            | .ok lv =>
              let memoLength := if lv < 0 then 0 else lv
              match collectBytes mv blockIndex 8 memoLength memoBlockSize with
              | .error e => .error e
              | .ok bs => .ok (.vtext bs)
      else .error (memoVersionMsg version)

/-- Unsupported-field-type error message (strict mode `default` arm). -/
def typeMsg (type : Nat) : String :=
  "Type " ++ toString type ++ " is not supported"

/-- The `C`-field trailing-space trim: the source walks `effectiveLen` down
from `field.size` while the byte before the current end is 0x20. -/
def cTrimLen (chunk : Bytes) (offset : Int) : Nat → Nat
  | 0 => 0
  | el + 1 =>
    if byteAt chunk (offset + (el : Int)) = 0x20 then cTrimLen chunk offset el
    else el + 1

/-- Decode one field at `offset` inside the current chunk.  `chunkStart` is
the chunk's absolute position inside `dbf.data`: `decodeAt` reads through the
chunk view (clamped at the chunk bounds), while `DataView` reads go through
the underlying whole-file buffer at `chunkStart + offset`.  The result pairs
the outcome with the new offset; `some v` assigns `record[field.name] = v`,
`none` models the `continue` arms that leave the field out of the record. -/
def decodeOneField (dbf : DBFFile) (memoBlockSize : Int)
    (memoView : Option Bytes) (chunk : Bytes) (chunkStart offset : Int)
    (field : FieldDescriptor) : Except String (Option Value) × Int :=
  let len : Int := field.size
  if field.type = 67 then
    -- 'C': trim trailing spaces, decode the remainder (empty text if all
    -- spaces).
    let el := cTrimLen chunk offset field.size
    (.ok (some (.vtext (if 0 < el then sliceClamp chunk offset (offset + el)
      else []))), offset + len)
  else if field.type = 78 ∨ field.type = 70 then
    -- 'N' / 'F': trimmed numeric text (empty or unparsable stands for 0).
    (.ok (some (.vnumber (jsTrim (sliceClamp chunk offset (offset + len))))),
      offset + len)
  else if field.type = 76 then
    -- 'L': one character; TtYy true, FfNn false, else null.
    let c := byteAt chunk offset
    (.ok (some (if [84, 116, 89, 121].contains c then .vbool true
      else if [70, 102, 78, 110].contains c then .vbool false
      else .vnull)), offset + 1)
  else if field.type = 84 then
    -- 'T': leading space is null, else two absolute little-endian int32
    -- reads (Julian day, then milliseconds + 1).
    if byteAt chunk offset = 0x20 then (.ok (some .vnull), offset + 8)
    else
      match dvAbsInt32LE dbf.data (chunkStart + offset) with
      | .error e => (.error e, offset + 8)
      | .ok jd =>
        match dvAbsInt32LE dbf.data (chunkStart + offset + 4) with
        | .error e => (.error e, offset + 8)
        | .ok ms => (.ok (some (.vdatetime jd (ms + 1))), offset + 8)
  else if field.type = 68 then
    -- 'D': leading space is null, else eight text bytes for parse8CharDate.
    (.ok (some (if byteAt chunk offset = 0x20 then .vnull
      else .vdate (sliceClamp chunk offset (offset + 8)))), offset + 8)
  else if field.type = 66 then
    -- 'B': DataView(buffer, abs, field.size).getFloat64(0, true): the
    -- constructor needs the window inside the file, the accessor eight bytes.
    if chunkStart + offset < 0 ∨
        (dbf.data.length : Int) < chunkStart + offset + len then
      (.error "RangeError", offset + len)
    else if field.size < 8 then (.error "RangeError", offset + len)
    else (.ok (some (.vdouble (sliceClamp dbf.data (chunkStart + offset)
      (chunkStart + offset + 8)))), offset + len)
  else if field.type = 73 then
    -- 'I': DataView(buffer, abs, field.size).getInt32(0, true).
    if chunkStart + offset < 0 ∨
        (dbf.data.length : Int) < chunkStart + offset + len then
      (.error "RangeError", offset + len)
    else if field.size < 4 then (.error "RangeError", offset + len)
    else (.ok (some (.vint (int32LE dbf.data (chunkStart + offset)))),
      offset + len)
  else if field.type = 77 then
    -- 'M': parse the block index (absolute little-endian int32 for version
    -- 0x30, numeric text otherwise), then resolve through the memo buffer.
    let bires : Except String (Option Int) :=
      if dbf.version = 0x30 then
        if chunkStart + offset < 0 ∨
            (dbf.data.length : Int) < chunkStart + offset + len then
          .error "RangeError"
        else if field.size < 4 then .error "RangeError"
        else .ok (some (int32LE dbf.data (chunkStart + offset)))
      else .ok (parseIntBytes (sliceClamp chunk offset (offset + len)))
    match bires with
    | .error e => (.error e, offset + len)
    | .ok none => (.ok (some .vnull), offset + len)
    | .ok (some blockIndex) =>
      if blockIndex = 0 then (.ok (some .vnull), offset + len)
      else
        match memoView with
        | none =>
          -- Missing memo buffer: strict throws, loose `continue`s (the
          -- field is left out of the record).
          if dbf.readMode = .strict then (.error memoPastEndMsg, offset + len)
          else (.ok none, offset + len)
        | some mv =>
          match memoResolve dbf.version memoBlockSize mv blockIndex with
          | .error e => (.error e, offset + len)
          | .ok v => (.ok (some v), offset + len)
  else
    -- default arm: strict throws, loose skips the field's bytes and omits
    -- the field.
    if dbf.readMode = .strict then (.error (typeMsg field.type), offset)
    else (.ok none, offset + len)

/-- Decode every field of one record in descriptor order, threading the
offset and the growing record. -/
def decodeFields (dbf : DBFFile) (memoBlockSize : Int)
    (memoView : Option Bytes) (chunk : Bytes) (chunkStart offset : Int)
    (flds : List FieldDescriptor) (rec : List (Bytes × Value)) :
    Except String (List (Bytes × Value) × Int) :=
  match flds with
  | [] => .ok (rec, offset)
  | field :: rest =>
    match decodeOneField dbf memoBlockSize memoView chunk chunkStart offset
        field with
    | (.error e, _) => .error e
    | (.ok none, offset') =>
      decodeFields dbf memoBlockSize memoView chunk chunkStart offset' rest rec
    | (.ok (some v), offset') =>
      decodeFields dbf memoBlockSize memoView chunk chunkStart offset' rest
        (setField rec field.name v)

/-- The per-chunk record loop (`for (let i = 0, offset = 0; ...)`): for each
raw record, read the deletion flag; a deleted record with
`includeDeletedRecords` unset is skipped whole (the offset still advances by
`recordLength`), otherwise the fields are decoded and the record is pushed,
carrying the out-of-band deleted marker when flagged. -/
def parseRecords (dbf : DBFFile) (memoBlockSize : Int)
    (memoView : Option Bytes) (chunk : Bytes) (chunkStart : Int) :
    Nat → Int → List DecodedRecord → Except String (List DecodedRecord)
  | 0, _, acc => .ok acc
  | r + 1, offset, acc =>
    let isDeleted := byteAt chunk offset = 0x2a
    let offset1 := offset + 1
    if isDeleted ∧ ¬ dbf.includeDeletedRecords then
      parseRecords dbf memoBlockSize memoView chunk chunkStart r
        (offset1 + (dbf.recordLength - 1)) acc
    else
      match decodeFields dbf memoBlockSize memoView chunk chunkStart offset1
          dbf.fields [] with
      | .error e => .error e
      | .ok (fs, offset') =>
        parseRecords dbf memoBlockSize memoView chunk chunkStart r offset'
          (acc ++ [{ fields := fs, deleted := isDeleted }])

/-- The chunked read loop of `readRecordsFromDBF`: while records remain and
fewer than `maxCount` have been collected, scan the next
`min(remaining, maxCount - collected, recordCountPerBuffer)` raw records.
The chunk window is a `Uint8Array(dbf.data, start, len)` view, whose
constructor raises `RangeError` when the window leaves the buffer; the cursor
advances by the chunk size before the chunk is parsed.  The `hrpb` argument
records the one fact about the caller-supplied page size
(`recordCountPerBuffer = min maxCount 1000` in the only caller) that makes
the loop terminate. -/
def readChunks (dbf : DBFFile) (maxCount recordCountPerBuffer : Int)
    (hrpb : 1 ≤ maxCount → 1 ≤ recordCountPerBuffer) (memoBlockSize : Int)
    (memoView : Option Bytes) (recordsRead : Int)
    (records : List DecodedRecord) :
    Except String (List DecodedRecord × Int) :=
  if h : recordsRead < dbf.recordCount ∧ (records.length : Int) < maxCount
  then
    let recordCountToRead :=
      min (dbf.recordCount - recordsRead)
        (min (maxCount - (records.length : Int)) recordCountPerBuffer)
    if hz : recordCountToRead = 0 then .ok (records, recordsRead)
    else
      let bufStart := dbf.headerLength + recordsRead * dbf.recordLength
      let bufLen := dbf.recordLength * recordCountToRead
      if bufStart < 0 ∨ bufLen < 0 ∨
          (dbf.data.length : Int) < bufStart + bufLen then .error "RangeError"
      else
        let chunk := sliceClamp dbf.data bufStart (bufStart + bufLen)
        match parseRecords dbf memoBlockSize memoView chunk bufStart
            recordCountToRead.toNat 0 records with
        | .error e => .error e
        | .ok records' =>
          readChunks dbf maxCount recordCountPerBuffer hrpb memoBlockSize
            memoView (recordsRead + recordCountToRead) records'
  else .ok (records, recordsRead)
  termination_by (dbf.recordCount - recordsRead).toNat
  decreasing_by
    have hm : 1 ≤ maxCount := by omega
    have := hrpb hm
    omega

/-- The memo prelude of `readRecordsFromDBF`: when a memo buffer is present,
derive the block size from its header — a big-endian uint16 at offset 6 for
versions 0x30/0xf5, a big-endian int32 at offset 4 for 0x8b (both defaulting
to 512 when zero), and 512 for every other version. -/
def computeMemoBlockSize (version : Int) (memoData : Bytes) :
    Except String Int :=
  if version = 0x30 ∨ version = 0xf5 then
    match dvUint16BE memoData 6 with
    | .error e => .error e
    | .ok v => .ok (if v = 0 then 512 else v)
  else if version = 0x8b then
    match dvInt32BE memoData 4 with
    | .error e => .error e
    | .ok v => .ok (if v = 0 then 512 else v)
  else .ok 512

/-- Block size and memo view as set up before the read loop (block size 0 and
no view when no memo buffer was supplied). -/
def memoPrelude (dbf : DBFFile) : Except String (Int × Option Bytes) :=
  match dbf.memoData with
  | none => .ok (0, none)
  | some md =>
    match computeMemoBlockSize dbf.version md with
    | .error e => .error e
    | .ok s => .ok (s, some md)

/-- `readRecordsFromDBF` (`DBFFile.readRecords`): memo prelude, then the
chunked read loop with page size `min maxCount 1000`; the handle is returned
with the advanced cursor (its only mutated member). -/
def readRecordsFromDBF (dbf : DBFFile) (maxCount : Int) :
    Except String (List DecodedRecord × DBFFile) :=
  match memoPrelude dbf with
  | .error e => .error e
  | .ok (memoBlockSize, memoView) =>
    match readChunks dbf maxCount (min maxCount 1000)
        (fun h => le_min h (by norm_num)) memoBlockSize memoView
        dbf.recordsRead [] with
    | .error e => .error e
    | .ok (records, recordsRead') =>
      .ok (records, { dbf with recordsRead := recordsRead' })

/-- A sequence of `readRecords` calls on one handle, collecting each call's
batch (the exhaustive-read pattern of the async iterator). -/
def runCalls (dbf : DBFFile) :
    List Int → Except String (List (List DecodedRecord) × DBFFile)
  | [] => .ok ([], dbf)
  | m :: ms =>
    match readRecordsFromDBF dbf m with
    | .error e => .error e
    | .ok (recs, dbf') =>
      match runCalls dbf' ms with
      | .error e => .error e
      | .ok (batches, dbfF) => .ok (recs :: batches, dbfF)

/-- Specification-side helper: the offset advance one field contributes
inside a record (`L` consumes one byte, `T` and `D` eight, every other arm
`field.size`). -/
def fieldAdvance (f : FieldDescriptor) : Int :=
  if f.type = 76 then 1
  else if f.type = 84 ∨ f.type = 68 then 8
  else (f.size : Int)

/-- Specification-side helper: total offset advance of a field list. -/
def fieldsAdvance (flds : List FieldDescriptor) : Int :=
  (flds.map fieldAdvance).sum

/-- Specification-side helper: among `count` consecutive raw records starting
at record number `start`, how many carry the 0x2A deletion flag. -/
def deletedFlagCount (dbf : DBFFile) (start : Int) : Nat → Nat
  | 0 => 0
  | c + 1 =>
    (if byteAt dbf.data (dbf.headerLength + start * dbf.recordLength) = 0x2a
     then 1 else 0) + deletedFlagCount dbf (start + 1) c

/-- The block size exactly as the C3 claim words it (refinement comparison):
little-endian uint16 at offset 6 for 0x30/0xf5, little-endian int32 at
offset 4 for 0x8b, both defaulting to 512 when zero, and 512 for 0x83. -/
def specMemoBlockSize (version : Int) (memoData : Bytes) : Int :=
  if version = 0x30 ∨ version = 0xf5 then
    let v := (byteAt memoData 6 : Int) + 256 * (byteAt memoData 7 : Int)
    if v = 0 then 512 else v
  else if version = 0x8b then
    let v := int32LE memoData 4
    if v = 0 then 512 else v
  else 512

/-- The 0x83 memo payload exactly as the C4 claim words it (refinement
comparison): the bytes from `blockIndex * blockSize` up to but excluding the
first 0x1A at or after that offset, or to the end of the buffer when no 0x1A
occurs, decoded as plain text with no rewriting. -/
def specMemo83Bytes (mv : Bytes) (blockIndex blockSize : Int) : Bytes :=
  let start := blockIndex * blockSize
  let t := jsIndexOf mv 0x1a start
  sliceClamp mv start (if t = -1 then (mv.length : Int) else t)

/-! ## Helper lemmas -/

/-- A successful 16-bit header read means the buffer holds at least
`off + 2` bytes. -/
theorem dvInt16LE_ok_length {b : Bytes} {off : Nat} {v : Int}
    (h : dvInt16LE b off = .ok v) : off + 2 ≤ b.length := by
  by_contra hc
  simp [dvInt16LE, hc] at h

/-- With twelve bytes of header available, the three numeric header reads of
`openDBF` succeed and the remainder of `openDBF` is exposed. -/
theorem openDBF_unfold (data : Bytes) (memoData : Option Bytes)
    (readMode : ReadMode) (includeDeletedRecords : Bool)
    (h12 : 12 ≤ data.length) :
    openDBF data memoData readMode includeDeletedRecords =
      (if readMode ≠ .loose ∧ ¬ isValidFileVersion (byteAt data 0) then
        .error (invalidVersionMsg (byteAt data 0))
      else
        match parseFields data (int16LE data 8) readMode (byteAt data 0) 32 []
            with
        | .error e => .error e
        | .ok (fields, offset) =>
          if byteAt data offset ≠ 0x0d then
            .error "Invalid DBF file: header terminator not found."
          else
            let computedRecordLength := calculateRecordLengthInBytes fields
            let recordLength :=
              if readMode = .loose then computedRecordLength
              else int16LE data 10
            if recordLength ≠ computedRecordLength then
              .error (invalidRecordLengthMsg recordLength
                computedRecordLength)
            else
              .ok { data := data
                    recordCount := int32LE data 4
                    dateOfLastUpdate :=
                      ((byteAt data 1 : Int) + 1900, (byteAt data 2 : Int),
                        (byteAt data 3 : Int))
                    fields := fields
                    readMode := readMode
                    includeDeletedRecords := includeDeletedRecords
                    recordsRead := 0
                    headerLength := int16LE data 8
                    recordLength := recordLength
                    memoData := memoData
                    version := (byteAt data 0 : Int) }) := by
  have h1 : dvInt32LE data 4 = .ok (int32LE data 4) := by
    simp [dvInt32LE]; omega
  have h2 : dvInt16LE data 8 = .ok (int16LE data 8) := by
    simp [dvInt16LE]; omega
  have h3 : dvInt16LE data 10 = .ok (int16LE data 10) := by
    simp [dvInt16LE]; omega
  simp only [openDBF, h1, h2, h3]

/-! ## C7: the header-terminator check is unconditional -/

/-- C7: in both strict and loose mode, whenever header parsing reaches the
byte just after the field-descriptor table and that byte is not 0x0D, `open`
fails with the fatal terminator `FormatError`; it is never suppressed. -/
theorem c7_header_terminator (data : Bytes) (memoData : Option Bytes)
    (readMode : ReadMode) (includeDeletedRecords : Bool)
    (flds : List FieldDescriptor) (offset : Int)
    (h12 : 12 ≤ data.length)
    (hver : readMode = .strict → isValidFileVersion (byteAt data 0))
    (hpf : parseFields data (int16LE data 8) readMode (byteAt data 0) 32 [] =
      .ok (flds, offset))
    (hterm : byteAt data offset ≠ 0x0d) :
    openDBF data memoData readMode includeDeletedRecords =
      .error "Invalid DBF file: header terminator not found." := by
  rw [openDBF_unfold data memoData readMode includeDeletedRecords h12]
  have hv : ¬ (readMode ≠ .loose ∧ ¬ isValidFileVersion (byteAt data 0)) := by
    rcases readMode with _ | _
    · simp [hver rfl]
    · simp
  rw [if_neg hv, hpf]
  simp [hterm]

/-- Witness for C7: a concrete strict-mode file whose descriptor table is
followed by 0x00 instead of 0x0D. -/
theorem c7_header_terminator_witness :
    openDBF ([0x03, 1, 1, 1, 0, 0, 0, 0, 32, 0, 1, 0] ++
        List.replicate 20 0 ++ [0]) none .strict false =
      .error "Invalid DBF file: header terminator not found." := by
  refine c7_header_terminator _ _ _ _ [] 32 (by decide)
    (fun _ => by decide) ?_ (by decide)
  have h8 : int16LE ([0x03, 1, 1, 1, 0, 0, 0, 0, 32, 0, 1, 0] ++
      List.replicate 20 0 ++ [0]) 8 = 32 := by decide
  have h0 : byteAt ([0x03, 1, 1, 1, 0, 0, 0, 0, 32, 0, 1, 0] ++
      List.replicate 20 0 ++ [0]) 0 = 3 := by decide
  rw [h8, h0, parseFields]
  simp

/-! ## C6: record-length validation (strict) vs recomputation (loose) -/

/-- C6: when the header's stated record length differs from one plus the sum
of the field sizes, strict-mode open fails with the record-length
`FormatError`; loose-mode open silently replaces the stated value with the
computed sum, so any successfully opened loose handle carries the computed
record length. -/
theorem c6_record_length :
    (∀ (data : Bytes) (memoData : Option Bytes) (incl : Bool)
      (flds : List FieldDescriptor) (offset : Int),
      12 ≤ data.length →
      isValidFileVersion (byteAt data 0) →
      parseFields data (int16LE data 8) .strict (byteAt data 0) 32 [] =
        .ok (flds, offset) →
      byteAt data offset = 0x0d →
      int16LE data 10 ≠ calculateRecordLengthInBytes flds →
      openDBF data memoData .strict incl =
        .error (invalidRecordLengthMsg (int16LE data 10)
          (calculateRecordLengthInBytes flds))) ∧
    (∀ (data : Bytes) (memoData : Option Bytes) (incl : Bool) (dbf : DBFFile),
      openDBF data memoData .loose incl = .ok dbf →
      dbf.recordLength = calculateRecordLengthInBytes dbf.fields) := by
  constructor
  · intro data memoData incl flds offset h12 hver hpf hterm hne
    rw [openDBF_unfold data memoData .strict incl h12]
    have hv : ¬ (ReadMode.strict ≠ ReadMode.loose ∧
        ¬ isValidFileVersion (byteAt data 0)) := by simp [hver]
    rw [if_neg hv, hpf]
    simp [hterm, hne]
  · intro data memoData incl dbf h
    unfold openDBF at h
    cases h1 : dvInt32LE data 4 with
    | error e => rw [h1] at h; cases h
    | ok rc =>
    rw [h1] at h
    cases h2 : dvInt16LE data 8 with
    | error e => rw [h2] at h; cases h
    | ok hl =>
    rw [h2] at h
    cases h3 : dvInt16LE data 10 with
    | error e => rw [h3] at h; cases h
    | ok rl0 =>
    rw [h3] at h
    simp only [ne_eq, not_true_eq_false, false_and, if_false, ite_false,
      if_neg, reduceIte] at h
    cases h4 : parseFields data hl .loose (byteAt data 0) 32 [] with
    | error e => rw [h4] at h; cases h
    | ok p =>
    rw [h4] at h
    obtain ⟨flds, off⟩ := p
    by_cases h5 : byteAt data off = 0x0d
    · simp only [h5, ne_eq, not_true_eq_false, ite_false, if_false,
        eq_self_iff_true, if_true, reduceIte] at h
      cases h
      simp
    · simp [h5] at h

/-- Witness for C6: a zero-field file whose header states record length 2
while the computed length is 1 — strict open fails with the record-length
message, loose open succeeds and carries the recomputed length 1. -/
theorem c6_record_length_witness :
    openDBF ([0x03, 1, 1, 1, 0, 0, 0, 0, 32, 0, 2, 0] ++
        List.replicate 20 0 ++ [13]) none .strict false =
      .error (invalidRecordLengthMsg 2 1) ∧
    ({ data := [0x03, 1, 1, 1, 0, 0, 0, 0, 32, 0, 2, 0] ++
          List.replicate 20 0 ++ [13]
       recordCount := 0
       dateOfLastUpdate := (1901, 1, 1)
       fields := []
       readMode := .loose
       includeDeletedRecords := false
       recordsRead := 0
       headerLength := 32
       recordLength := 1
       memoData := none
       version := 3 } : DBFFile).recordLength =
      calculateRecordLengthInBytes [] := by
  constructor
  · have h := c6_record_length.1
      ([0x03, 1, 1, 1, 0, 0, 0, 0, 32, 0, 2, 0] ++ List.replicate 20 0 ++
        [13]) none false [] 32 (by decide) (by decide)
    have h8 : int16LE ([0x03, 1, 1, 1, 0, 0, 0, 0, 32, 0, 2, 0] ++
        List.replicate 20 0 ++ [13]) 8 = 32 := by decide
    have h10 : int16LE ([0x03, 1, 1, 1, 0, 0, 0, 0, 32, 0, 2, 0] ++
        List.replicate 20 0 ++ [13]) 10 = 2 := by decide
    have h0 : byteAt ([0x03, 1, 1, 1, 0, 0, 0, 0, 32, 0, 2, 0] ++
        List.replicate 20 0 ++ [13]) 0 = 3 := by decide
    rw [h8, h0, h10] at h
    have hpf : parseFields ([0x03, 1, 1, 1, 0, 0, 0, 0, 32, 0, 2, 0] ++
        List.replicate 20 0 ++ [13]) 32 .strict 3 32 [] = .ok ([], 32) := by
      rw [parseFields]; simp
    have := h hpf (by decide) (by decide)
    simpa [calculateRecordLengthInBytes] using this
  · apply c6_record_length.2
      ([0x03, 1, 1, 1, 0, 0, 0, 0, 32, 0, 2, 0] ++ List.replicate 20 0 ++
        [13]) none false
    rw [openDBF_unfold _ _ _ _ (by decide)]
    have h8 : int16LE ([0x03, 1, 1, 1, 0, 0, 0, 0, 32, 0, 2, 0] ++
        List.replicate 20 0 ++ [13]) 8 = 32 := by decide
    have h0 : byteAt ([0x03, 1, 1, 1, 0, 0, 0, 0, 32, 0, 2, 0] ++
        List.replicate 20 0 ++ [13]) 0 = 3 := by decide
    rw [h8, h0]
    have hpf : parseFields ([0x03, 1, 1, 1, 0, 0, 0, 0, 32, 0, 2, 0] ++
        List.replicate 20 0 ++ [13]) 32 .loose 3 32 [] = .ok ([], 32) := by
      rw [parseFields]; simp
    rw [hpf]
    decide

/-! ## C5: version and duplicate-name validation happen in strict mode only -/

/-- Loose-mode field parsing never fails: both the descriptor validation and
the duplicate-name check are skipped entirely. -/
theorem parseFields_loose_isOk (data : Bytes) (hl : Int) (fv : Nat) :
    ∀ (n : Nat) (off : Int) (fs : List FieldDescriptor),
      (hl - off).toNat ≤ n → (parseFields data hl .loose fv off fs).isOk := by
  intro n
  induction n with
  | zero =>
    intro off fs hle
    rw [parseFields]
    have h1 : hl ≤ off := by omega
    simp [h1, Except.isOk, Except.toBool]
  | succ k ih =>
    intro off fs hle
    rw [parseFields]
    by_cases h1 : hl ≤ off
    · simp [h1, Except.isOk, Except.toBool]
    · by_cases h2 : byteAt data off = 0x0d
      · simp [h1, h2, Except.isOk, Except.toBool]
      · simp only [h1, h2, dite_false, dif_neg, not_false_eq_true, ite_false,
          if_neg, ne_eq, not_true_eq_false, reduceIte]
        exact ih (off + 32) (fs ++ [mkFieldAt data off]) (by omega)

/-- C5 (amended): the invalid-version and duplicate-field-name checks are
fatal `FormatError`s in strict mode, but both are skipped entirely in loose
mode (loose field parsing never raises, so neither condition can surface
from a loose open). -/
theorem c5_open_validation :
    (∀ (data : Bytes) (memoData : Option Bytes) (incl : Bool),
      12 ≤ data.length → ¬ isValidFileVersion (byteAt data 0) →
      openDBF data memoData .strict incl =
        .error (invalidVersionMsg (byteAt data 0))) ∧
    (∀ (data : Bytes) (hl : Int) (fv : Nat) (off : Int)
      (fs : List FieldDescriptor),
      ¬ hl ≤ off → byteAt data off ≠ 0x0d →
      validateFieldDescriptor (mkFieldAt data off) fv = .ok () →
      ¬ (fs.all fun f => f.name ≠ (mkFieldAt data off).name) →
      parseFields data hl .strict fv off fs =
        .error (dupFieldNameMsg (mkFieldAt data off).name)) ∧
    (∀ (data : Bytes) (hl : Int) (fv : Nat) (off : Int)
      (fs : List FieldDescriptor),
      (parseFields data hl .loose fv off fs).isOk) := by
  refine ⟨?_, ?_, ?_⟩
  · intro data memoData incl h12 hbad
    rw [openDBF_unfold data memoData .strict incl h12]
    rw [if_pos (by simp [hbad])]
  · intro data hl fv off fs h1 h2 hval hdup
    rw [parseFields]
    simp only [dif_neg h1, if_neg h2, ne_eq, reduceIte, hval, if_pos hdup]
    rw [if_pos (show ¬ ReadMode.strict = ReadMode.loose by decide)]
  · intro data hl fv off fs
    exact parseFields_loose_isOk data hl fv (hl - off).toNat off fs le_rfl

/-- Counterexample to C5 as stated: a file whose version byte is 4 (not a
valid tag) opens successfully in loose mode — the failure is not
mode-independent. -/
theorem c5_loose_invalid_version_opens :
    (openDBF ([4, 1, 1, 1, 0, 0, 0, 0, 32, 0, 1, 0] ++
      List.replicate 20 0 ++ [13]) none .loose false).isOk = true := by
  rw [openDBF_unfold _ _ _ _ (by decide)]
  have h8 : int16LE ([4, 1, 1, 1, 0, 0, 0, 0, 32, 0, 1, 0] ++
      List.replicate 20 0 ++ [13]) 8 = 32 := by decide
  have h0 : byteAt ([4, 1, 1, 1, 0, 0, 0, 0, 32, 0, 1, 0] ++
      List.replicate 20 0 ++ [13]) 0 = 4 := by decide
  rw [h8, h0]
  have hpf : parseFields ([4, 1, 1, 1, 0, 0, 0, 0, 32, 0, 1, 0] ++
      List.replicate 20 0 ++ [13]) 32 .loose 4 32 [] = .ok ([], 32) := by
    rw [parseFields]; simp
  rw [hpf]
  decide

/-- Witness for C5: the strict-mode failures at concrete inputs — the same
invalid-version file rejected in strict mode, and a duplicate `C(10)` field
named `A` rejected during strict field parsing. -/
theorem c5_open_validation_witness :
    openDBF ([4, 1, 1, 1, 0, 0, 0, 0, 32, 0, 1, 0] ++
        List.replicate 20 0 ++ [13]) none .strict false =
      .error (invalidVersionMsg 4) ∧
    parseFields ([65, 0, 0, 0, 0, 0, 0, 0, 0, 0, 0, 67, 0, 0, 0, 0, 10, 0]
        ++ List.replicate 14 0) 32 .strict 3 0
        [{ name := [65], type := 67, size := 10, decimalPlaces := 0 }] =
      .error (dupFieldNameMsg [65]) ∧
    (parseFields [] 32 .loose 4 32 []).isOk := by
  refine ⟨?_, ?_, ?_⟩
  · have h := c5_open_validation.1
      ([4, 1, 1, 1, 0, 0, 0, 0, 32, 0, 1, 0] ++ List.replicate 20 0 ++ [13])
      none false (by decide) (by decide)
    have h0 : byteAt ([4, 1, 1, 1, 0, 0, 0, 0, 32, 0, 1, 0] ++
        List.replicate 20 0 ++ [13]) 0 = 4 := by decide
    rwa [h0] at h
  · have h := c5_open_validation.2.1
      ([65, 0, 0, 0, 0, 0, 0, 0, 0, 0, 0, 67, 0, 0, 0, 0, 10, 0] ++
        List.replicate 14 0) 32 3 0
      [{ name := [65], type := 67, size := 10, decimalPlaces := 0 }]
      (by decide) (by decide) (by decide) (by decide)
    have hmk : mkFieldAt ([65, 0, 0, 0, 0, 0, 0, 0, 0, 0, 0, 67, 0, 0, 0, 0,
        10, 0] ++ List.replicate 14 0) 0 =
        { name := [65], type := 67, size := 10, decimalPlaces := 0 } := by
      decide
    rwa [hmk] at h
  · exact c5_open_validation.2.2 [] 32 4 32 []

end DBF

namespace DBF

/-! ## C3: memo block-size derivation is big-endian, not little-endian -/

/-- Counterexample to C3 as stated: a memo header whose bytes 6..7 are
`01 00` — the claimed little-endian uint16 would be 1, but the code derives
the big-endian value 256. -/
theorem c3_block_size_counterexample :
    computeMemoBlockSize 0x30 [0, 0, 0, 0, 0, 0, 1, 0] ≠
      .ok (specMemoBlockSize 0x30 [0, 0, 0, 0, 0, 0, 1, 0]) := by decide

/-- C3 (amended): with at least eight bytes of memo header, the block size is
the big-endian uint16 at offset 6 for versions 0x30/0xf5 and the big-endian
int32 at offset 4 for version 0x8b — both defaulting to 512 when the stored
value is zero — and the constant 512 for every other version (in particular
0x83).  The value is recomputed from the immutable memo buffer on each read
call, so it is the same throughout a session. -/
theorem c3_block_size_big_endian (version : Int) (memoData : Bytes)
    (h8 : 8 ≤ memoData.length) :
    ((version = 0x30 ∨ version = 0xf5) →
      computeMemoBlockSize version memoData =
        .ok (if uint16BE memoData 6 = 0 then 512 else uint16BE memoData 6)) ∧
    (version = 0x8b →
      computeMemoBlockSize version memoData =
        .ok (if int32BE memoData 4 = 0 then 512 else int32BE memoData 4)) ∧
    (¬ (version = 0x30 ∨ version = 0xf5) → version ≠ 0x8b →
      computeMemoBlockSize version memoData = .ok 512) := by
  refine ⟨?_, ?_, ?_⟩
  · intro hv
    unfold computeMemoBlockSize dvUint16BE
    rw [if_pos hv, if_pos (by omega)]
    rfl
  · intro hv
    have hv' : ¬ (version = 0x30 ∨ version = 0xf5) := by
      rcases hv with rfl; decide
    unfold computeMemoBlockSize dvInt32BE
    rw [if_neg hv', if_pos hv, if_pos (by omega)]
    rfl
  · intro hv1 hv2
    unfold computeMemoBlockSize
    rw [if_neg hv1, if_neg hv2]


/-- Witness for C3 (amended): the three version families at concrete memo
headers — 0x30 gives the big-endian 256, 0x8b gives the big-endian int32,
0x83 gives 512. -/
theorem c3_block_size_big_endian_witness :
    computeMemoBlockSize 0x30 [0, 0, 0, 0, 0, 0, 1, 0] = .ok 256 ∧
    computeMemoBlockSize 0x8b [0, 0, 0, 0, 0, 0, 0, 0] = .ok 512 ∧
    computeMemoBlockSize 0x83 [0, 0, 0, 0, 0, 0, 1, 0] = .ok 512 := by
  refine ⟨?_, ?_, ?_⟩
  · have h := (c3_block_size_big_endian 0x30 [0, 0, 0, 0, 0, 0, 1, 0]
      (by decide)).1 (by decide)
    have he : uint16BE [0, 0, 0, 0, 0, 0, 1, 0] 6 = 256 := by decide
    rw [he] at h
    simpa using h
  · have h := (c3_block_size_big_endian 0x8b [0, 0, 0, 0, 0, 0, 0, 0]
      (by decide)).2.1 (by decide)
    have he : int32BE [0, 0, 0, 0, 0, 0, 0, 0] 4 = 0 := by decide
    rw [he] at h
    simpa using h
  · exact (c3_block_size_big_endian 0x83 [0, 0, 0, 0, 0, 0, 1, 0]
      (by decide)).2.2 (by decide) (by decide)

/-! ## C4: the 0x83 memo decode rewrites the payload -/

/-- A 0x83 memo buffer whose block 1 holds the text `Hi\r\nBye` followed by
the 0x1A terminator. -/
def mv83bug : Bytes := List.replicate 512 0 ++ [72, 105, 13, 10, 66, 121, 101, 26]

set_option maxRecDepth 40000 in
/-- C4: the code does not return the plain decoded slice.  At block index 1
of `mv83bug` the claimed (and spec-preferred, and test-expected) plain decode
is `Hi\r\nBye`, but the code rewrites the payload: CRLF becomes LF and
sixteen spaces are injected after the interior newline.  This contradicts the
repository's own test expectation for the `dbase_83.dbf` fixture, whose
multi-line `DESC` memo is asserted without any injected indentation. -/
theorem c4_0x83_rewrites_payload :
    memoResolve 0x83 512 mv83bug 1 =
      .ok (.vtext ([72, 105, 10] ++ List.replicate 16 32 ++ [66, 121, 101])) ∧
    specMemo83Bytes mv83bug 1 512 = [72, 105, 13, 10, 66, 121, 101] ∧
    ([72, 105, 10] ++ List.replicate 16 32 ++ [66, 121, 101] : Bytes) ≠
      [72, 105, 13, 10, 66, 121, 101] := by
  refine ⟨by decide, by decide, by decide⟩

/-! ## C9: version-0x30 memo with a non-text type tag resolves to "" -/

/-- C9: for a version-0x30 memo field whose referenced first block lies
inside the memo buffer (its four-byte type tag is readable) and whose
big-endian type tag is not 1, resolution yields the empty string and no
error is raised. -/
theorem c9_0x30_nontext_memo_empty (memoBlockSize : Int) (mv : Bytes)
    (blockIndex : Int) (h1 : 0 < memoBlockSize)
    (h2 : 0 ≤ blockIndex * memoBlockSize)
    (h3 : blockIndex * memoBlockSize + 4 ≤ (mv.length : Int))
    (h4 : int32BE mv (blockIndex * memoBlockSize) ≠ 1) :
    memoResolve 0x30 memoBlockSize mv blockIndex = .ok (.vtext []) := by
  unfold memoResolve
  rw [if_neg (by omega)]
  have hr : ensureRange mv.length (blockIndex * memoBlockSize) 0 = .ok () := by
    unfold ensureRange
    rw [if_neg (by omega)]
  have hi : readInt32mem mv (blockIndex * memoBlockSize) false =
      .ok (int32BE mv (blockIndex * memoBlockSize)) := by
    unfold readInt32mem ensureRange
    rw [if_neg (by omega)]
    rfl
  simp only [hr, hi]
  simp [h4]

/-- Witness for C9: a concrete 12-byte memo whose block 1 (block size 4)
carries the big-endian type tag 2. -/
theorem c9_0x30_nontext_memo_empty_witness :
    memoResolve 0x30 4 [0, 0, 0, 0, 0, 0, 0, 2, 0, 0, 0, 0] 1 =
      .ok (.vtext []) :=
  c9_0x30_nontext_memo_empty 4 [0, 0, 0, 0, 0, 0, 0, 2, 0, 0, 0, 0] 1
    (by decide) (by decide) (by decide) (by decide)

end DBF

namespace DBF

/-! ## C2: memo bounds violations throw in both modes; missing buffer -/

/-- C2 (amended): a block index whose block offset falls outside the memo
buffer makes resolution fail with the `MemoError` message in strict and
loose mode alike (`memoResolve` does not consult the read mode at all), and
no partial read occurs; when the memo buffer is absent while a non-null memo
pointer is present, strict mode raises the `MemoError` and loose mode leaves
the field out of the record. -/
theorem c2_memo_errors :
    (∀ (version memoBlockSize : Int) (mv : Bytes) (blockIndex : Int),
      0 < memoBlockSize →
      (blockIndex * memoBlockSize < 0 ∨
        (mv.length : Int) ≤ blockIndex * memoBlockSize) →
      memoResolve version memoBlockSize mv blockIndex =
        .error memoPastEndMsg) ∧
    (∀ (dbf : DBFFile) (memoBlockSize : Int) (chunk : Bytes)
      (chunkStart offset : Int) (field : FieldDescriptor) (blockIndex : Int),
      field.type = 77 → dbf.version ≠ 0x30 →
      parseIntBytes (sliceClamp chunk offset (offset + (field.size : Int))) =
        some blockIndex →
      blockIndex ≠ 0 →
      decodeOneField dbf memoBlockSize none chunk chunkStart offset field =
        (if dbf.readMode = .strict then
          (.error memoPastEndMsg, offset + (field.size : Int))
        else (.ok none, offset + (field.size : Int)))) := by
  constructor
  · intro version memoBlockSize mv blockIndex h1 h2
    unfold memoResolve
    rw [if_neg (by omega)]
    have hr : ensureRange mv.length (blockIndex * memoBlockSize) 0 =
        .error memoPastEndMsg := by
      unfold ensureRange
      rw [if_pos (by omega)]
    simp only [hr]
  · intro dbf memoBlockSize chunk chunkStart offset field blockIndex ht hv
      hpi hbz
    unfold decodeOneField
    simp only [ht]
    norm_num
    rw [if_neg hv]
    simp only [hpi]
    rw [if_neg hbz]

/-- The concrete loose-mode file behind the C2 counterexample: version 0x83,
one `M(1)` field named `B`, one record whose memo pointer text is `9`. -/
def c2File : Bytes :=
  [0x83, 1, 1, 1, 1, 0, 0, 0, 65, 0, 2, 0] ++ List.replicate 20 0 ++
    ([66] ++ List.replicate 10 0 ++ [77, 0, 0, 0, 0, 1, 0] ++
      List.replicate 14 0) ++ [13, 32, 57]

/-- A ten-byte memo buffer: block 9 of block size 512 is far outside it. -/
def c2Memo : Bytes := List.replicate 10 0

/-- The handle the loose open of `c2File` produces. -/
def c2Dbf : DBFFile :=
  { data := c2File
    recordCount := 1
    dateOfLastUpdate := (1901, 1, 1)
    fields := [{ name := [66], type := 77, size := 1, decimalPlaces := 0 }]
    readMode := .loose
    includeDeletedRecords := false
    recordsRead := 0
    headerLength := 65
    recordLength := 2
    memoData := some c2Memo
    version := 0x83 }

/-- Counterexample to C2 as stated: the handle is reachable by a loose-mode
open, and reading it raises the `MemoError` rather than yielding an empty
string — loose mode does not suppress the out-of-range memo access. -/
theorem c2_loose_out_of_range_throws :
    openDBF c2File (some c2Memo) .loose false = .ok c2Dbf ∧
    readRecordsFromDBF c2Dbf 10 = .error memoPastEndMsg := by
  constructor
  · rw [openDBF_unfold _ _ _ _ (by decide)]
    have h8 : int16LE c2File 8 = 65 := by decide
    have h0 : byteAt c2File 0 = 131 := by decide
    rw [h8, h0]
    have hpf : parseFields c2File 65 .loose 131 32 [] =
        .ok ([{ name := [66], type := 77, size := 1, decimalPlaces := 0 }],
          64) := by
      rw [parseFields]
      rw [dif_neg (by norm_num)]
      rw [if_neg (show ¬ byteAt c2File 32 = 13 by decide)]
      rw [show mkFieldAt c2File 32 =
        { name := [66], type := 77, size := 1, decimalPlaces := 0 } from
        by decide]
      norm_num
      rw [parseFields]
      rw [dif_neg (by norm_num)]
      rw [if_pos (show byteAt c2File 64 = 13 by decide)]
    rw [hpf]
    decide
  · have hmp : memoPrelude c2Dbf = .ok (512, some c2Memo) := by decide
    unfold readRecordsFromDBF
    simp only [hmp]
    rw [readChunks]
    decide

/-! ## C10: maxCount ≤ 0 returns the empty batch — unless the memo prelude
throws first -/

/-- A handle whose memo buffer is too short for the version-0x8b block-size
read: the `DataView` over `memoData.slice(4, 8)` holds one byte. -/
def c10Dbf : DBFFile :=
  { data := []
    recordCount := 0
    dateOfLastUpdate := (1900, 0, 0)
    fields := []
    readMode := .strict
    includeDeletedRecords := false
    recordsRead := 0
    headerLength := 0
    recordLength := 1
    memoData := some [0, 0, 0, 0, 0]
    version := 0x8b }

/-- Counterexample to C10 as stated: even with `maxCount = 0` the call does
not return an empty batch — the memo block-size derivation runs before the
read loop and raises `RangeError` on the five-byte memo buffer. -/
theorem c10_short_memo_throws_on_zero_maxcount :
    readRecordsFromDBF c10Dbf 0 = .error "RangeError" := by decide

/-- C10 (amended): whenever the memo prelude succeeds (in particular for any
handle without a memo buffer), a call with `maxCount ≤ 0` returns the empty
batch and the completely unchanged handle — the cursor and every other
member keep their values. -/
theorem c10_nonpositive_maxcount_noop (dbf : DBFFile) (maxCount : Int)
    (p : Int × Option Bytes) (hm : maxCount ≤ 0)
    (hp : memoPrelude dbf = .ok p) :
    readRecordsFromDBF dbf maxCount = .ok ([], dbf) := by
  obtain ⟨mbs, mv⟩ := p
  unfold readRecordsFromDBF
  simp only [hp]
  rw [readChunks]
  rw [dif_neg (by simp only [List.length_nil, Nat.cast_zero]; omega)]

/-- Witness for C10 (amended): a memo-free handle read with `maxCount = -5`
returns the empty batch and the unchanged handle. -/
theorem c10_nonpositive_maxcount_noop_witness :
    readRecordsFromDBF
      { data := [0, 0]
        recordCount := 1
        dateOfLastUpdate := (1900, 0, 0)
        fields := []
        readMode := .strict
        includeDeletedRecords := false
        recordsRead := 0
        headerLength := 1
        recordLength := 1
        memoData := none
        version := 3 } (-5) =
      .ok ([],
        { data := [0, 0]
          recordCount := 1
          dateOfLastUpdate := (1900, 0, 0)
          fields := []
          readMode := .strict
          includeDeletedRecords := false
          recordsRead := 0
          headerLength := 1
          recordLength := 1
          memoData := none
          version := 3 }) :=
  c10_nonpositive_maxcount_noop _ (-5) (0, none) (by norm_num) (by decide)

end DBF

namespace DBF

/-! ## C8: deleted-record handling -/

/-- The concrete C8 scenario file: version 0x83, fields `A : C(10)` and
`B : M(10)` (memo pointers all blank, so they decode to null without a memo
buffer), three records of 21 bytes, record 2 flagged 0x2A. -/
def c8File : Bytes :=
  [0x83, 95, 7, 26, 3, 0, 0, 0, 97, 0, 21, 0] ++ List.replicate 20 0 ++
    ([65] ++ List.replicate 10 0 ++ [67, 0, 0, 0, 0, 10, 0] ++
      List.replicate 14 0) ++
    ([66] ++ List.replicate 10 0 ++ [77, 0, 0, 0, 0, 10, 0] ++
      List.replicate 14 0) ++
    [13] ++
    ([32] ++ List.replicate 10 65 ++ List.replicate 10 32) ++
    ([42] ++ List.replicate 10 66 ++ List.replicate 10 32) ++
    ([32] ++ List.replicate 10 67 ++ List.replicate 10 32)

/-- The handle `open` builds for `c8File` with default options. -/
def c8DbfD : DBFFile :=
  { data := c8File
    recordCount := 3
    dateOfLastUpdate := (1995, 7, 26)
    fields := [{ name := [65], type := 67, size := 10, decimalPlaces := 0 },
               { name := [66], type := 77, size := 10, decimalPlaces := 0 }]
    readMode := .strict
    includeDeletedRecords := false
    recordsRead := 0
    headerLength := 97
    recordLength := 21
    memoData := none
    version := 131 }

/-- The handle `open` builds for `c8File` with `includeDeletedRecords`. -/
def c8DbfI : DBFFile := { c8DbfD with includeDeletedRecords := true }

/-- The default-mode batch: records 1 and 3 only. -/
def c8RecsD : List DecodedRecord :=
  [{ fields := [([65], .vtext (List.replicate 10 65)), ([66], .vnull)]
     deleted := false },
   { fields := [([65], .vtext (List.replicate 10 67)), ([66], .vnull)]
     deleted := false }]

/-- The include-deleted batch: all three records, record 2 marked deleted. -/
def c8RecsI : List DecodedRecord :=
  [{ fields := [([65], .vtext (List.replicate 10 65)), ([66], .vnull)]
     deleted := false },
   { fields := [([65], .vtext (List.replicate 10 66)), ([66], .vnull)]
     deleted := true },
   { fields := [([65], .vtext (List.replicate 10 67)), ([66], .vnull)]
     deleted := false }]

set_option maxRecDepth 100000 in
/-- C8: a record whose flag byte is 0x2A is, without
`includeDeletedRecords`, skipped with no field decoded while the offset
still advances by `recordLength`; with the option set it is decoded and
carries the out-of-band deleted marker.  Concretely, `c8File` (three
records, record 2 deleted) yields two records by default and three with the
option, record 2 bearing the marker, the cursor reaching 3 in both runs. -/
theorem c8_deleted_record_handling :
    (∀ (dbf : DBFFile) (mbs : Int) (mv : Option Bytes) (chunk : Bytes)
      (chunkStart : Int) (r : Nat) (offset : Int) (acc : List DecodedRecord),
      byteAt chunk offset = 0x2a → dbf.includeDeletedRecords = false →
      parseRecords dbf mbs mv chunk chunkStart (r + 1) offset acc =
        parseRecords dbf mbs mv chunk chunkStart r
          (offset + dbf.recordLength) acc) ∧
    (∀ (dbf : DBFFile) (mbs : Int) (mv : Option Bytes) (chunk : Bytes)
      (chunkStart : Int) (r : Nat) (offset : Int) (acc : List DecodedRecord)
      (fs : List (Bytes × Value)) (offset' : Int),
      byteAt chunk offset = 0x2a → dbf.includeDeletedRecords = true →
      decodeFields dbf mbs mv chunk chunkStart (offset + 1) dbf.fields [] =
        .ok (fs, offset') →
      parseRecords dbf mbs mv chunk chunkStart (r + 1) offset acc =
        parseRecords dbf mbs mv chunk chunkStart r offset'
          (acc ++ [{ fields := fs, deleted := true }])) ∧
    openDBF c8File none .strict false = .ok c8DbfD ∧
    readRecordsFromDBF c8DbfD 10 =
      .ok (c8RecsD, { c8DbfD with recordsRead := 3 }) ∧
    c8RecsD.length = 2 ∧
    openDBF c8File none .strict true = .ok c8DbfI ∧
    readRecordsFromDBF c8DbfI 10 =
      .ok (c8RecsI, { c8DbfI with recordsRead := 3 }) ∧
    c8RecsI.length = 3 ∧
    c8RecsI.map (fun r => r.deleted) = [false, true, false] := by
  refine ⟨?_, ?_, ?_, ?_, by decide, ?_, ?_, by decide, by decide⟩
  · intro dbf mbs mv chunk chunkStart r offset acc hflag hinc
    simp only [parseRecords]
    rw [if_pos ⟨hflag, by simp [hinc]⟩]
    have ha : offset + 1 + (dbf.recordLength - 1) = offset + dbf.recordLength
      := by ring
    rw [ha]
  · intro dbf mbs mv chunk chunkStart r offset acc fs offset' hflag hinc hdf
    simp only [parseRecords]
    rw [if_neg (by simp [hinc])]
    simp only [hdf, hflag, hinc]
    norm_num
  · show openDBF c8File none .strict false = .ok c8DbfD
    rw [openDBF_unfold _ _ _ _ (by decide)]
    have h8 : int16LE c8File 8 = 97 := by decide
    have h0 : byteAt c8File 0 = 131 := by decide
    rw [h8, h0]
    have hpf : parseFields c8File 97 .strict 131 32 [] =
        .ok ([{ name := [65], type := 67, size := 10, decimalPlaces := 0 },
              { name := [66], type := 77, size := 10, decimalPlaces := 0 }],
          96) := by
      simp +decide [parseFields, mkFieldAt]
    rw [hpf]
    decide
  · show readRecordsFromDBF c8DbfD 10 =
      .ok (c8RecsD, { c8DbfD with recordsRead := 3 })
    have h1 : readChunks c8DbfD 10 (min 10 1000)
        (fun h => le_min h (by norm_num)) 0 none c8DbfD.recordsRead [] =
        readChunks c8DbfD 10 (min 10 1000)
          (fun h => le_min h (by norm_num)) 0 none 3 c8RecsD := by
      rw [readChunks]
      rfl
    have h2 : readChunks c8DbfD 10 (min 10 1000)
        (fun h => le_min h (by norm_num)) 0 none 3 c8RecsD =
        .ok (c8RecsD, 3) := by
      rw [readChunks]
      decide
    unfold readRecordsFromDBF
    simp only [show memoPrelude c8DbfD = .ok (0, none) from by decide]
    rw [h1, h2]
  · show openDBF c8File none .strict true = .ok c8DbfI
    rw [openDBF_unfold _ _ _ _ (by decide)]
    have h8 : int16LE c8File 8 = 97 := by decide
    have h0 : byteAt c8File 0 = 131 := by decide
    rw [h8, h0]
    have hpf : parseFields c8File 97 .strict 131 32 [] =
        .ok ([{ name := [65], type := 67, size := 10, decimalPlaces := 0 },
              { name := [66], type := 77, size := 10, decimalPlaces := 0 }],
          96) := by
      simp +decide [parseFields, mkFieldAt]
    rw [hpf]
    decide
  · show readRecordsFromDBF c8DbfI 10 =
      .ok (c8RecsI, { c8DbfI with recordsRead := 3 })
    have h1 : readChunks c8DbfI 10 (min 10 1000)
        (fun h => le_min h (by norm_num)) 0 none c8DbfI.recordsRead [] =
        readChunks c8DbfI 10 (min 10 1000)
          (fun h => le_min h (by norm_num)) 0 none 3 c8RecsI := by
      rw [readChunks]
      rfl
    have h2 : readChunks c8DbfI 10 (min 10 1000)
        (fun h => le_min h (by norm_num)) 0 none 3 c8RecsI =
        .ok (c8RecsI, 3) := by
      rw [readChunks]
      decide
    unfold readRecordsFromDBF
    simp only [show memoPrelude c8DbfI = .ok (0, none) from by decide]
    rw [h1, h2]

set_option maxRecDepth 100000 in
/-- Witness for C8: the two general equations applied at concrete inputs —
a deleted flag byte with the option unset skips to the next record boundary;
with the option set the decoded record carries the marker. -/
theorem c8_deleted_record_handling_witness :
    parseRecords c8DbfD 0 none [42] 0 1 0 [] =
      parseRecords c8DbfD 0 none [42] 0 0 (0 + c8DbfD.recordLength) [] ∧
    parseRecords c8DbfI 0 none
        ([42] ++ List.replicate 10 66 ++ List.replicate 10 32) 0 1 0 [] =
      parseRecords c8DbfI 0 none
        ([42] ++ List.replicate 10 66 ++ List.replicate 10 32) 0 0 21
        ([] ++ [{ fields := [([65], .vtext (List.replicate 10 66)),
                            ([66], .vnull)]
                  deleted := true }]) := by
  constructor
  · exact c8_deleted_record_handling.1 c8DbfD 0 none [42] 0 0 0 []
      (by decide) (by decide)
  · exact c8_deleted_record_handling.2.1 c8DbfI 0 none
      ([42] ++ List.replicate 10 66 ++ List.replicate 10 32) 0 0 0 []
      [([65], .vtext (List.replicate 10 66)), ([66], .vnull)] 21
      (by decide) (by decide) (by decide)

end DBF

namespace DBF

def skipCount (dbf : DBFFile) (chunk : Bytes) : Nat → Int → Nat
  | 0, _ => 0
  | r + 1, offset =>
    if byteAt chunk offset = 0x2a ∧ ¬ dbf.includeDeletedRecords then
      1 + skipCount dbf chunk r (offset + 1 + (dbf.recordLength - 1))
    else skipCount dbf chunk r (offset + 1 + fieldsAdvance dbf.fields)

/-- Outcome classification for a single-field decode: either the offset
advanced by the field's advance, or the arm failed leaving the offset
untouched (only the strict-mode unsupported-type arm does the latter). -/
def sndAdvance (offset adv : Int) (d : Except String (Option Value) × Int) :
    Prop :=
  d.2 = offset + adv ∨ ∃ e, d.1 = .error e ∧ d.2 = offset

set_option maxHeartbeats 1000000 in
theorem decodeOneField_sndAdvance (dbf : DBFFile) (mbs : Int)
    (mv : Option Bytes) (chunk : Bytes) (cs offset : Int)
    (field : FieldDescriptor) :
    sndAdvance offset (fieldAdvance field)
      (decodeOneField dbf mbs mv chunk cs offset field) := by
  unfold decodeOneField
  by_cases h1 : field.type = 67
  · rw [if_pos h1]
    left
    simp [fieldAdvance, h1]
  rw [if_neg h1]
  by_cases h2 : field.type = 78 ∨ field.type = 70
  · rw [if_pos h2]
    left
    rcases h2 with h2 | h2 <;> simp [fieldAdvance, h2]
  rw [if_neg h2]
  by_cases h3 : field.type = 76
  · rw [if_pos h3]
    left
    simp [fieldAdvance, h3]
  rw [if_neg h3]
  by_cases h4 : field.type = 84
  · rw [if_pos h4]
    repeat' split
    all_goals left
    all_goals simp [fieldAdvance, h4]
  rw [if_neg h4]
  by_cases h5 : field.type = 68
  · rw [if_pos h5]
    left
    simp [fieldAdvance, h5]
  rw [if_neg h5]
  by_cases h6 : field.type = 66
  · rw [if_pos h6]
    repeat' split
    all_goals left
    all_goals simp [fieldAdvance, h6]
  rw [if_neg h6]
  by_cases h7 : field.type = 73
  · rw [if_pos h7]
    repeat' split
    all_goals left
    all_goals simp [fieldAdvance, h7]
  rw [if_neg h7]
  by_cases h8 : field.type = 77
  · rw [if_pos h8]
    repeat' split
    all_goals left
    all_goals simp [fieldAdvance, h8]
    all_goals repeat' split
    all_goals rfl
  rw [if_neg h8]
  split
  · right
    exact ⟨typeMsg field.type, rfl, rfl⟩
  · left
    simp [fieldAdvance, h3, h4, h5]

/-- Every successful single-field decode advances the offset by exactly
`fieldAdvance` of the field (one byte for `L`, eight for `T`/`D`, the
declared size otherwise). -/
theorem decodeOneField_ok_snd (dbf : DBFFile) (mbs : Int) (mv : Option Bytes)
    (chunk : Bytes) (cs offset : Int) (field : FieldDescriptor)
    (ov : Option Value) (offset' : Int)
    (h : decodeOneField dbf mbs mv chunk cs offset field = (.ok ov, offset')) :
    offset' = offset + fieldAdvance field := by
  rcases decodeOneField_sndAdvance dbf mbs mv chunk cs offset field with
    hs | ⟨e, he, -⟩
  · rw [h] at hs
    exact hs
  · rw [h] at he
    exact Except.noConfusion he

end DBF

namespace DBF

/-- A successful record decode advances the offset by the total
`fieldsAdvance` of the schema. -/
theorem decodeFields_ok_snd (dbf : DBFFile) (mbs : Int) (mv : Option Bytes)
    (chunk : Bytes) (cs : Int) :
    ∀ (flds : List FieldDescriptor) (offset : Int)
      (rec rec' : List (Bytes × Value)) (offset' : Int),
      decodeFields dbf mbs mv chunk cs offset flds rec = .ok (rec', offset') →
      offset' = offset + fieldsAdvance flds := by
  intro flds
  induction flds with
  | nil =>
    intro offset rec rec' offset' h
    simp only [decodeFields] at h
    cases h
    simp [fieldsAdvance]
  | cons field rest ih =>
    intro offset rec rec' offset' h
    simp only [decodeFields] at h
    cases hd : decodeOneField dbf mbs mv chunk cs offset field with
    | mk res o2 =>
      rw [hd] at h
      cases res with
      | error e => cases h
      | ok ov =>
        have ho2 : o2 = offset + fieldAdvance field :=
          decodeOneField_ok_snd dbf mbs mv chunk cs offset field ov o2 hd
        cases ov with
        | none =>
          have hr := ih o2 rec rec' offset' h
          simp only [fieldsAdvance] at hr ⊢
          simp only [List.map_cons, List.sum_cons]
          omega
        | some v =>
          have hr := ih o2 (setField rec field.name v) rec' offset' h
          simp only [fieldsAdvance] at hr ⊢
          simp only [List.map_cons, List.sum_cons]
          omega

/-- Per-chunk counting: a successful record loop pushes exactly the scanned
count minus the records skipped as deleted. -/
theorem parseRecords_length (dbf : DBFFile) (mbs : Int) (mv : Option Bytes)
    (chunk : Bytes) (cs : Int) :
    ∀ (r : Nat) (offset : Int) (acc out : List DecodedRecord),
      parseRecords dbf mbs mv chunk cs r offset acc = .ok out →
      out.length + skipCount dbf chunk r offset = acc.length + r := by
  intro r
  induction r with
  | zero =>
    intro offset acc out h
    simp only [parseRecords] at h
    cases h
    simp [skipCount]
  | succ r ih =>
    intro offset acc out h
    simp only [parseRecords] at h
    rw [skipCount]
    by_cases hc : byteAt chunk offset = 0x2a ∧ ¬ dbf.includeDeletedRecords
    · rw [if_pos hc] at h
      rw [if_pos hc]
      have := ih (offset + 1 + (dbf.recordLength - 1)) acc out h
      omega
    · rw [if_neg hc] at h
      rw [if_neg hc]
      cases hdf : decodeFields dbf mbs mv chunk cs (offset + 1) dbf.fields []
          with
      | error e => rw [hdf] at h; cases h
      | ok p =>
        rw [hdf] at h
        obtain ⟨fs, off2⟩ := p
        have hoff : off2 = offset + 1 + fieldsAdvance dbf.fields :=
          decodeFields_ok_snd dbf mbs mv chunk cs dbf.fields (offset + 1) []
            fs off2 hdf
        have hr := ih off2 (acc ++
          [{ fields := fs,
             deleted := decide (byteAt chunk offset = 0x2a) }]) out h
        rw [hoff] at hr
        simp only [List.length_append, List.length_cons, List.length_nil]
          at hr
        omega

end DBF

namespace DBF

/-- Reading through a clamped slice at an in-range position reads the
underlying buffer at the translated position. -/
theorem byteAt_sliceClamp (b : Bytes) (s e i : Int) (hs : 0 ≤ s)
    (hi : 0 ≤ i) (hie : s + i < e) (he : e ≤ (b.length : Int)) :
    byteAt (sliceClamp b s e) i = byteAt b (s + i) := by
  unfold byteAt sliceClamp
  rw [if_pos hi, if_pos (by omega)]
  have hmaxe : (max e 0).toNat = e.toNat := by omega
  have hmaxs : (max s 0).toNat = s.toNat := by omega
  rw [hmaxe, hmaxs]
  rw [List.getD_eq_getElem?_getD, List.getD_eq_getElem?_getD]
  rw [List.getElem?_drop]
  rw [List.getElem?_take_of_lt]
  · have hix : s.toNat + i.toNat = (s + i).toNat := by omega
    rw [hix]
  · omega

/-- `deletedFlagCount` splits over adjacent ranges. -/
theorem deletedFlagCount_add (dbf : DBFFile) :
    ∀ (m n : Nat) (a : Int),
      deletedFlagCount dbf a (m + n) =
        deletedFlagCount dbf a m + deletedFlagCount dbf (a + m) n := by
  intro m
  induction m with
  | zero =>
    intro n a
    simp [deletedFlagCount]
  | succ m ih =>
    intro n a
    have hadd : m + 1 + n = (m + n) + 1 := by omega
    rw [hadd]
    rw [deletedFlagCount, deletedFlagCount]
    rw [ih n (a + 1)]
    have hx : a + 1 + (m : Int) = a + ((m : Nat) + 1 : Nat) := by
      push_cast
      ring
    rw [hx]
    omega

/-- `deletedFlagCount` ignores the cursor member of the handle. -/
theorem deletedFlagCount_update (dbf : DBFFile) (x : Int) :
    ∀ (n : Nat) (a : Int),
      deletedFlagCount { dbf with recordsRead := x } a n =
        deletedFlagCount dbf a n := by
  intro n
  induction n with
  | zero => intro a; rfl
  | succ n ih =>
    intro a
    rw [deletedFlagCount, deletedFlagCount, ih]

/-- Under the schema alignment `recordLength = 1 + fieldsAdvance fields`,
the operational skip count over a chunk equals the deletion-flag count over
the corresponding raw records of the file. -/
theorem skipCount_eq_deletedFlagCount (dbf : DBFFile) (start : Int)
    (hinc : dbf.includeDeletedRecords = false)
    (halign : dbf.recordLength = 1 + fieldsAdvance dbf.fields)
    (hrl : 0 < dbf.recordLength) (bufLen : Int)
    (hbs : 0 ≤ dbf.headerLength + start * dbf.recordLength)
    (hbe : dbf.headerLength + start * dbf.recordLength + bufLen ≤
      (dbf.data.length : Int)) :
    ∀ (r j : Nat), ((j : Int) + r) * dbf.recordLength ≤ bufLen →
      skipCount dbf
        (sliceClamp dbf.data (dbf.headerLength + start * dbf.recordLength)
          (dbf.headerLength + start * dbf.recordLength + bufLen)) r
        ((j : Int) * dbf.recordLength) =
      deletedFlagCount dbf (start + j) r := by
  intro r
  induction r with
  | zero =>
    intro j hjr
    rfl
  | succ r ih =>
    intro j hjr
    have hjpos : 0 ≤ (j : Int) * dbf.recordLength :=
      mul_nonneg (by omega) (le_of_lt hrl)
    push_cast at hjr
    have hsplit : ((j : Int) + ((r : Int) + 1)) * dbf.recordLength =
        (j : Int) * dbf.recordLength + ((r : Int) + 1) * dbf.recordLength :=
      by ring
    have hge : dbf.recordLength ≤ ((r : Int) + 1) * dbf.recordLength := by
      have h1 : (1 : Int) ≤ (r : Int) + 1 := by omega
      calc dbf.recordLength = 1 * dbf.recordLength := by ring
        _ ≤ ((r : Int) + 1) * dbf.recordLength :=
          mul_le_mul_of_nonneg_right h1 (le_of_lt hrl)
    have hlt : (j : Int) * dbf.recordLength < bufLen := by
      rw [hsplit] at hjr
      omega
    have hbyte : byteAt
        (sliceClamp dbf.data (dbf.headerLength + start * dbf.recordLength)
          (dbf.headerLength + start * dbf.recordLength + bufLen))
        ((j : Int) * dbf.recordLength) =
        byteAt dbf.data (dbf.headerLength + start * dbf.recordLength +
          (j : Int) * dbf.recordLength) :=
      byteAt_sliceClamp dbf.data _ _ _ hbs hjpos (by omega) (by omega)
    have hposeq : dbf.headerLength + start * dbf.recordLength +
        (j : Int) * dbf.recordLength =
        dbf.headerLength + (start + (j : Int)) * dbf.recordLength := by ring
    have hnext : (j : Int) * dbf.recordLength + 1 +
        (dbf.recordLength - 1) = (((j + 1) : Nat) : Int) * dbf.recordLength
        := by push_cast; ring
    have hnext2 : (j : Int) * dbf.recordLength + 1 +
        fieldsAdvance dbf.fields =
        (((j + 1) : Nat) : Int) * dbf.recordLength := by
      push_cast
      rw [halign]
      ring
    have hrec : ((((j + 1) : Nat) : Int) + (r : Int)) * dbf.recordLength ≤
        bufLen := by
      push_cast
      calc ((j : Int) + 1 + (r : Int)) * dbf.recordLength =
          ((j : Int) + ((r : Int) + 1)) * dbf.recordLength := by ring
        _ ≤ bufLen := hjr
    have ihx := ih (j + 1) hrec
    have hstart : start + (((j + 1) : Nat) : Int) = start + (j : Int) + 1 :=
      by push_cast; ring
    rw [hstart] at ihx
    rw [skipCount, deletedFlagCount]
    rw [hbyte, hposeq, hnext, hnext2, ihx]
    by_cases hflag : byteAt dbf.data
        (dbf.headerLength + (start + (j : Int)) * dbf.recordLength) = 0x2a
    · rw [if_pos ⟨hflag, by simp [hinc]⟩, if_pos hflag]
    · rw [if_neg (by simp [hinc, hflag]), if_neg hflag]
      omega

end DBF

namespace DBF

set_option maxHeartbeats 1000000 in
/-- The read-loop invariant: a successful `readChunks` run advances the
cursor monotonically and never past `recordCount`, returns records plus
skipped deletions equal to the raw records scanned, never exceeds
`maxCount`, and ends short of `maxCount` only with the cursor exhausted. -/
theorem readChunks_invariant (dbf : DBFFile) (maxCount rpb : Int)
    (hrpb : 1 ≤ maxCount → 1 ≤ rpb) (mbs : Int) (mv : Option Bytes)
    (hinc : dbf.includeDeletedRecords = false)
    (halign : dbf.recordLength = 1 + fieldsAdvance dbf.fields)
    (hrl : 0 < dbf.recordLength) :
    ∀ (n : Nat) (rr : Int) (acc out : List DecodedRecord) (rr' : Int),
      (dbf.recordCount - rr).toNat ≤ n →
      0 ≤ rr → rr ≤ dbf.recordCount →
      readChunks dbf maxCount rpb hrpb mbs mv rr acc = .ok (out, rr') →
      rr ≤ rr' ∧ rr' ≤ dbf.recordCount ∧
      (out.length : Int) + (deletedFlagCount dbf rr (rr' - rr).toNat : Int) =
        (acc.length : Int) + (rr' - rr) ∧
      (out.length : Int) ≤ max (acc.length : Int) maxCount ∧
      ((out.length : Int) < maxCount → rr' = dbf.recordCount) := by
  intro n
  induction n with
  | zero =>
    intro rr acc out rr' hn h0 hle h
    rw [readChunks] at h
    rw [dif_neg (by omega)] at h
    cases h
    refine ⟨le_refl _, hle, ?_, le_max_left _ _, ?_⟩
    · have hz : (rr - rr).toNat = 0 := by omega
      rw [hz]
      simp [deletedFlagCount]
    · intro _
      omega
  | succ n ih =>
    intro rr acc out rr' hn h0 hle h
    rw [readChunks] at h
    by_cases hg : rr < dbf.recordCount ∧ (acc.length : Int) < maxCount
    · rw [dif_pos hg] at h
      have hm : 1 ≤ maxCount := by omega
      have hrpb1 := hrpb hm
      dsimp only at h
      split at h
      · rename_i hz
        exfalso
        omega
      · rename_i hz
        split at h
        · exact Except.noConfusion h
        · rename_i hb
          split at h
          · exact Except.noConfusion h
          · rename_i records' heq
            have h1 : 1 ≤ min (dbf.recordCount - rr)
                (min (maxCount - (acc.length : Int)) rpb) := by omega
            have IH := ih (rr + min (dbf.recordCount - rr)
                (min (maxCount - (acc.length : Int)) rpb)) records' out rr'
              (by omega) (by omega) (by omega) h
            have hlen := parseRecords_length dbf mbs mv _ _ _ _ _ _ heq
            have hskip := skipCount_eq_deletedFlagCount dbf rr hinc halign
              hrl (dbf.recordLength * min (dbf.recordCount - rr)
                (min (maxCount - (acc.length : Int)) rpb))
              (by omega) (by omega)
              (min (dbf.recordCount - rr)
                (min (maxCount - (acc.length : Int)) rpb)).toNat 0
              (by
                have hc : ((min (dbf.recordCount - rr)
                    (min (maxCount - (acc.length : Int)) rpb)).toNat : Int) =
                    min (dbf.recordCount - rr)
                      (min (maxCount - (acc.length : Int)) rpb) := by omega
                simp only [Nat.cast_zero, zero_add, hc]
                rw [mul_comm])
            norm_num at hskip
            rw [hskip] at hlen
            have hdfc := deletedFlagCount_add dbf
              (min (dbf.recordCount - rr)
                (min (maxCount - (acc.length : Int)) rpb)).toNat
              (rr' - rr - min (dbf.recordCount - rr)
                (min (maxCount - (acc.length : Int)) rpb)).toNat rr
            have hsum : (min (dbf.recordCount - rr)
                (min (maxCount - (acc.length : Int)) rpb)).toNat +
                (rr' - rr - min (dbf.recordCount - rr)
                  (min (maxCount - (acc.length : Int)) rpb)).toNat =
                (rr' - rr).toNat := by omega
            rw [hsum] at hdfc
            have hstart : rr + ((min (dbf.recordCount - rr)
                (min (maxCount - (acc.length : Int)) rpb)).toNat : Int) =
                rr + min (dbf.recordCount - rr)
                  (min (maxCount - (acc.length : Int)) rpb) := by omega
            rw [hstart] at hdfc
            have hiheq : rr' - (rr + min (dbf.recordCount - rr)
                (min (maxCount - (acc.length : Int)) rpb)) =
                rr' - rr - min (dbf.recordCount - rr)
                  (min (maxCount - (acc.length : Int)) rpb) := by ring
            rw [hiheq] at IH
            refine ⟨by omega, IH.2.1, by omega, by omega, IH.2.2.2.2⟩
    · rw [dif_neg hg] at h
      cases h
      refine ⟨le_refl _, hle, ?_, le_max_left _ _, ?_⟩
      · have hz : (rr - rr).toNat = 0 := by omega
        rw [hz]
        simp [deletedFlagCount]
      · intro hlt
        omega

end DBF

namespace DBF

/-- Per-call contract of `readRecordsFromDBF` (see C1): only the cursor
changes, it moves forward by exactly the raw records scanned and never past
`recordCount`, the batch plus the deletions skipped over the scanned range
account for every scanned record, the batch never exceeds `maxCount`, and a
batch shorter than `maxCount` means the cursor is exhausted. -/
theorem readRecords_invariant (dbf : DBFFile) (maxCount : Int)
    (recs : List DecodedRecord) (dbf' : DBFFile)
    (hinc : dbf.includeDeletedRecords = false)
    (halign : dbf.recordLength = 1 + fieldsAdvance dbf.fields)
    (hrl : 0 < dbf.recordLength)
    (h0 : 0 ≤ dbf.recordsRead) (hle : dbf.recordsRead ≤ dbf.recordCount)
    (h : readRecordsFromDBF dbf maxCount = .ok (recs, dbf')) :
    dbf' = { dbf with recordsRead := dbf'.recordsRead } ∧
    dbf.recordsRead ≤ dbf'.recordsRead ∧
    dbf'.recordsRead ≤ dbf.recordCount ∧
    (recs.length : Int) +
      (deletedFlagCount dbf dbf.recordsRead
        (dbf'.recordsRead - dbf.recordsRead).toNat : Int) =
      dbf'.recordsRead - dbf.recordsRead ∧
    (recs.length : Int) ≤ max 0 maxCount ∧
    ((recs.length : Int) < maxCount → dbf'.recordsRead = dbf.recordCount)
    := by
  unfold readRecordsFromDBF at h
  split at h
  · exact Except.noConfusion h
  · rename_i mbs mv hmp
    split at h
    · exact Except.noConfusion h
    · rename_i records rr' heq
      have hinv := readChunks_invariant dbf maxCount (min maxCount 1000)
        (fun hh => le_min hh (by norm_num)) mbs mv hinc halign hrl
        (dbf.recordCount - dbf.recordsRead).toNat dbf.recordsRead []
        records rr' le_rfl h0 hle heq
      cases h
      refine ⟨rfl, hinv.1, hinv.2.1, ?_, ?_, hinv.2.2.2.2⟩
      · have := hinv.2.2.1
        simpa using this
      · have := hinv.2.2.2.1
        simpa using this

/-- Summation over a sequence of `readRecords` calls: when the calls
exhaust the cursor, the batches plus the skipped deletions account for every
raw record between the starting cursor and `recordCount`. -/
theorem runCalls_sum :
    ∀ (ms : List Int) (dbf : DBFFile) (batches : List (List DecodedRecord))
      (dbfF : DBFFile),
      dbf.includeDeletedRecords = false →
      dbf.recordLength = 1 + fieldsAdvance dbf.fields →
      0 < dbf.recordLength →
      0 ≤ dbf.recordsRead → dbf.recordsRead ≤ dbf.recordCount →
      runCalls dbf ms = .ok (batches, dbfF) →
      dbfF.recordsRead = dbf.recordCount →
      ((batches.map List.length).sum : Int) +
        (deletedFlagCount dbf dbf.recordsRead
          (dbf.recordCount - dbf.recordsRead).toNat : Int) =
        dbf.recordCount - dbf.recordsRead := by
  intro ms
  induction ms with
  | nil =>
    intro dbf batches dbfF hinc halign hrl h0 hle h hex
    simp only [runCalls] at h
    cases h
    have hz : (dbf.recordCount - dbf.recordsRead).toNat = 0 := by omega
    rw [hz]
    simp only [List.map_nil, List.sum_nil, deletedFlagCount, Nat.cast_zero,
      Nat.cast_ofNat, CharP.cast_eq_zero, zero_add]
    omega
  | cons m ms ih =>
    intro dbf batches dbfF hinc halign hrl h0 hle h hex
    simp only [runCalls] at h
    split at h
    · exact Except.noConfusion h
    · rename_i recs dbf1 heq1
      split at h
      · exact Except.noConfusion h
      · rename_i bs dbfF0 heq2
        cases h
        obtain ⟨hframe, hmono, hbound, hcount, -, -⟩ :=
          readRecords_invariant dbf m recs dbf1 hinc halign hrl h0 hle heq1
        have hrc1 : dbf1.recordCount = dbf.recordCount := by rw [hframe]
        have hinc1 : dbf1.includeDeletedRecords = false := by
          rw [hframe]; exact hinc
        have halign1 : dbf1.recordLength = 1 + fieldsAdvance dbf1.fields := by
          rw [hframe]; exact halign
        have hrl1 : (0 : Int) < dbf1.recordLength := by
          rw [hframe]; exact hrl
        have hdfc1 : ∀ (n : Nat) (a : Int),
            deletedFlagCount dbf1 a n = deletedFlagCount dbf a n := by
          intro n a
          rw [hframe]
          exact deletedFlagCount_update dbf dbf1.recordsRead n a
        have hIH := ih dbf1 bs dbfF hinc1 halign1 hrl1 (by omega)
          (by omega) heq2 (by rw [hrc1]; exact hex)
        rw [hdfc1, hrc1] at hIH
        have hsum : (dbf1.recordsRead - dbf.recordsRead).toNat +
            (dbf.recordCount - dbf1.recordsRead).toNat =
            (dbf.recordCount - dbf.recordsRead).toNat := by omega
        have hadd := deletedFlagCount_add dbf
          (dbf1.recordsRead - dbf.recordsRead).toNat
          (dbf.recordCount - dbf1.recordsRead).toNat dbf.recordsRead
        rw [hsum] at hadd
        have hst : dbf.recordsRead +
            ((dbf1.recordsRead - dbf.recordsRead).toNat : Int) =
            dbf1.recordsRead := by omega
        rw [hst] at hadd
        simp only [List.map_cons, List.sum_cons]
        omega

end DBF

namespace DBF

/-- C1: for a handle read without `includeDeletedRecords` (schema aligned,
positive record length, cursor within bounds), a successful `readRecords`
call mutates nothing but the cursor; the cursor moves forward by exactly the
raw records scanned and never past `recordCount`; the records returned plus
the deleted records skipped equal the raw records scanned; at most
`maxCount` records are returned; and a batch shorter than `maxCount` occurs
only with the record count exhausted.  Consequently (second part) any
sequence of calls that drives the cursor from 0 to `recordCount` returns
batches whose total size plus the total deletions skipped equals
`recordCount`. -/
theorem c1_chunked_read_contract (dbf : DBFFile) (maxCount : Int)
    (recs : List DecodedRecord) (dbf' : DBFFile)
    (hinc : dbf.includeDeletedRecords = false)
    (halign : dbf.recordLength = 1 + fieldsAdvance dbf.fields)
    (hrl : 0 < dbf.recordLength)
    (h0 : 0 ≤ dbf.recordsRead) (hle : dbf.recordsRead ≤ dbf.recordCount)
    (h : readRecordsFromDBF dbf maxCount = .ok (recs, dbf')) :
    (dbf' = { dbf with recordsRead := dbf'.recordsRead } ∧
     dbf.recordsRead ≤ dbf'.recordsRead ∧
     dbf'.recordsRead ≤ dbf.recordCount ∧
     (recs.length : Int) +
       (deletedFlagCount dbf dbf.recordsRead
         (dbf'.recordsRead - dbf.recordsRead).toNat : Int) =
       dbf'.recordsRead - dbf.recordsRead ∧
     (recs.length : Int) ≤ max 0 maxCount ∧
     ((recs.length : Int) < maxCount → dbf'.recordsRead = dbf.recordCount))
    ∧
    (∀ (ms : List Int) (batches : List (List DecodedRecord))
      (dbfF : DBFFile),
      dbf.recordsRead = 0 →
      runCalls dbf ms = .ok (batches, dbfF) →
      dbfF.recordsRead = dbf.recordCount →
      ((batches.map List.length).sum : Int) +
        (deletedFlagCount dbf 0 dbf.recordCount.toNat : Int) =
        dbf.recordCount) := by
  constructor
  · exact readRecords_invariant dbf maxCount recs dbf' hinc halign hrl h0
      hle h
  · intro ms batches dbfF hz0 hrun hex
    have hs := runCalls_sum ms dbf batches dbfF hinc halign hrl h0 hle hrun
      hex
    rw [hz0] at hs
    have hz : dbf.recordCount - 0 = dbf.recordCount := by ring
    rw [hz] at hs
    exact hs

/-- The concrete handle behind the C1 witness: three two-byte records with
one `C(1)` field, record 2 deleted. -/
def c1Dbf : DBFFile :=
  { data := [32, 65, 42, 66, 32, 67]
    recordCount := 3
    dateOfLastUpdate := (1900, 0, 0)
    fields := [{ name := [65], type := 67, size := 1, decimalPlaces := 0 }]
    readMode := .strict
    includeDeletedRecords := false
    recordsRead := 0
    headerLength := 0
    recordLength := 2
    memoData := none
    version := 3 }

/-- The batch the C1 witness handle yields: records 1 and 3. -/
def c1Recs : List DecodedRecord :=
  [{ fields := [([65], .vtext [65])], deleted := false },
   { fields := [([65], .vtext [67])], deleted := false }]

/-- Witness for C1: on the concrete three-record handle, one call returns
two records while the cursor reaches 3, the two records plus the one
skipped deletion account for all three raw records, and the exhaustive
one-call sequence satisfies the aggregate identity. -/
theorem c1_chunked_read_contract_witness :
    readRecordsFromDBF c1Dbf 10 =
      .ok (c1Recs, { c1Dbf with recordsRead := 3 }) ∧
    (c1Recs.length : Int) + (deletedFlagCount c1Dbf 0 3 : Int) = 3 ∧
    ((c1Recs.length : Int) < 10 →
      ({ c1Dbf with recordsRead := 3 } : DBFFile).recordsRead =
        c1Dbf.recordCount) ∧
    runCalls c1Dbf [10] =
      .ok ([c1Recs], { c1Dbf with recordsRead := 3 }) ∧
    (([c1Recs].map List.length).sum : Int) +
      (deletedFlagCount c1Dbf 0 c1Dbf.recordCount.toNat : Int) =
      c1Dbf.recordCount := by
  have hA : readChunks c1Dbf 10 (min 10 1000)
      (fun h => le_min h (by norm_num)) 0 none c1Dbf.recordsRead [] =
      readChunks c1Dbf 10 (min 10 1000)
        (fun h => le_min h (by norm_num)) 0 none 3 c1Recs := by
    rw [readChunks]
    rfl
  have hB : readChunks c1Dbf 10 (min 10 1000)
      (fun h => le_min h (by norm_num)) 0 none 3 c1Recs =
      .ok (c1Recs, 3) := by
    rw [readChunks]
    decide
  have hread : readRecordsFromDBF c1Dbf 10 =
      .ok (c1Recs, { c1Dbf with recordsRead := 3 }) := by
    unfold readRecordsFromDBF
    simp only [show memoPrelude c1Dbf = .ok (0, none) from by decide]
    rw [hA, hB]
  have hrun : runCalls c1Dbf [10] =
      .ok ([c1Recs], { c1Dbf with recordsRead := 3 }) := by
    simp only [runCalls, hread]
  have H := c1_chunked_read_contract c1Dbf 10 c1Recs
    { c1Dbf with recordsRead := 3 } (by decide) (by decide) (by decide)
    (by decide) (by decide) hread
  refine ⟨hread, ?_, H.1.2.2.2.2.2, hrun, ?_⟩
  · exact H.1.2.2.2.1
  · exact H.2 [10] [c1Recs] { c1Dbf with recordsRead := 3 } (by decide)
      hrun (by decide)

end DBF

namespace DBF

/-- Witness for C2 (amended): a block index far outside a ten-byte memo
buffer fails with the `MemoError` message; with a missing memo buffer and a
parsed pointer 9, the strict handle errors while the loose handle skips the
field (`none`), both advancing the offset past the field. -/
theorem c2_memo_errors_witness :
    memoResolve 0x83 512 (List.replicate 10 0) 9 = .error memoPastEndMsg ∧
    decodeOneField { c2Dbf with readMode := .strict } 512 none [57] 0 0
      { name := [66], type := 77, size := 1, decimalPlaces := 0 } =
      ((.error memoPastEndMsg : Except String (Option Value)), 0 + 1) ∧
    decodeOneField c2Dbf 512 none [57] 0 0
      { name := [66], type := 77, size := 1, decimalPlaces := 0 } =
      ((.ok none : Except String (Option Value)), 0 + 1) := by
  refine ⟨?_, ?_, ?_⟩
  · exact c2_memo_errors.1 0x83 512 (List.replicate 10 0) 9 (by decide)
      (by decide)
  · have h := c2_memo_errors.2 { c2Dbf with readMode := .strict } 512 [57]
      0 0 { name := [66], type := 77, size := 1, decimalPlaces := 0 } 9
      (by decide) (by decide) (by decide) (by decide)
    simpa using h
  · have h := c2_memo_errors.2 c2Dbf 512 [57] 0 0
      { name := [66], type := 77, size := 1, decimalPlaces := 0 } 9
      (by decide) (by decide) (by decide) (by decide)
    simpa using h

end DBF
